import Mathlib

/-!
# NEXUS — verification of the conversation-orchestrator core

A shallow embedding of the parts of the NEXUS assistant backend that the
frozen claims speak about:

* `nexus/db/models.py` — the message ledger (`claim_ledger`, `insert_ledger`).
* `nexus/core/policy.py` — pending-action creation and confirmation resolution.
* `nexus/core/decision.py` — the agent-decision JSON schema and parser.
* `nexus/core/loop.py` — the channel filter, inbound dedup, send path and the
  bounded ReAct loop.
* `nexus/memory/retrieval.py` — markdown-section retrieval scoring.
* `nexus/tools/scheduler.py` — the `when` trigger grammar.

Machine strings are Lean `String`s; Python `str.strip` / `str.lower` are
modelled on the ASCII fragment (all inputs the code compares against are
ASCII).  External services (the LLM router, tool bodies, `json.loads`,
`dateutil.parser.parse`) are parameters of the embedding, so every theorem is
quantified over their behaviour.
-/

namespace Nexus

/-! ## Python string primitives (ASCII fragment) -/

/-- The whitespace set of Python `str.strip` and `\s`, ASCII fragment. -/
def isPySpace (c : Char) : Bool :=
  c = ' ' || c = '\t' || c = '\n' || c = '\r' || c = '\x0b' || c = '\x0c'

/-- Python `str.strip()` (ASCII whitespace). -/
def pyStrip (s : String) : String :=
  ⟨(s.data.dropWhile isPySpace).reverse.dropWhile isPySpace |>.reverse⟩

/-- Python `str.lower()` on the ASCII fragment. -/
def pyLowerChar (c : Char) : Char :=
  if 'A' ≤ c ∧ c ≤ 'Z' then Char.ofNat (c.toNat + 32) else c

def pyLower (s : String) : String :=
  ⟨s.data.map pyLowerChar⟩

/-- Python `a.startswith(b)`. -/
def pyStartsWith (s pre : String) : Bool :=
  s.data.take pre.data.length == pre.data

/-! ## `nexus/db/models.py` — the message ledger

The `message_ledger` table has `message_id` as its primary key; we model it as
a list of rows in which the key is unique by construction of the two writers.
-/

structure LedgerEntry where
  messageId : String
  direction : String
  chatId : String
  deriving Repr, DecidableEq

abbrev Ledger := List LedgerEntry

/-- The query `SELECT 1 FROM message_ledger WHERE message_id = ?` (existence). -/
def ledgerHasId (l : Ledger) (id : String) : Bool :=
  l.any (fun e => e.messageId == id)

/-- Model of `Database.insert_ledger` — `INSERT OR REPLACE` keyed on `message_id`. -/
def insert_ledger (l : Ledger) (id dir chat : String) : Ledger :=
  ⟨id, dir, chat⟩ :: l.filter (fun e => e.messageId ≠ id)

/-- Model of `Database.claim_ledger` — `INSERT OR IGNORE` keyed on `message_id`;
returns whether this call inserted the row. -/
def claim_ledger (l : Ledger) (id dir chat : String) : Bool × Ledger :=
  if ledgerHasId l id then (false, l) else (true, ⟨id, dir, chat⟩ :: l)

/-- One store operation touching the ledger. -/
inductive LedgerOp
  | claim (id dir chat : String)
  | insert (id dir chat : String)
  deriving Repr, DecidableEq

def LedgerOp.opId : LedgerOp → String
  | .claim id _ _ => id
  | .insert id _ _ => id

def LedgerOp.isClaim : LedgerOp → Bool
  | .claim _ _ _ => true
  | .insert _ _ _ => false

/-- Run a trace of ledger operations; returns the final ledger and, in
execution order, the `(message_id, owned)` result of every `claim_ledger`
call. -/
def runLedgerOps : Ledger → List LedgerOp → Ledger × List (String × Bool)
  | l, [] => (l, [])
  | l, .claim id dir chat :: rest =>
      let r := claim_ledger l id dir chat
      let t := runLedgerOps r.2 rest
      (t.1, (id, r.1) :: t.2)
  | l, .insert id dir chat :: rest =>
      runLedgerOps (insert_ledger l id dir chat) rest

/-- Number of `claim_ledger` calls on `id` in a result trace that returned
`true`. -/
def ownedCount (id : String) (results : List (String × Bool)) : Nat :=
  (results.filter (fun p => p.1 == id && p.2)).length

theorem ownedCount_nil (x : String) : ownedCount x [] = 0 := rfl

theorem ownedCount_cons (x id : String) (b : Bool) (r : List (String × Bool)) :
    ownedCount x ((id, b) :: r) =
      (if id = x ∧ b = true then 1 else 0) + ownedCount x r := by
  simp only [ownedCount, List.filter_cons]
  split
  · rename_i h
    rw [if_pos]
    · simp [Nat.add_comm]
    · simpa [Bool.and_eq_true, beq_iff_eq] using h
  · rename_i h
    rw [if_neg]
    · simp
    · simpa [Bool.and_eq_true, beq_iff_eq] using h

theorem runLedgerOps_claim (l : Ledger) (id dir chat : String)
    (rest : List LedgerOp) :
    (runLedgerOps l (.claim id dir chat :: rest)).2 =
      (id, (claim_ledger l id dir chat).1) ::
        (runLedgerOps (claim_ledger l id dir chat).2 rest).2 := rfl

theorem runLedgerOps_insert (l : Ledger) (id dir chat : String)
    (rest : List LedgerOp) :
    (runLedgerOps l (.insert id dir chat :: rest)).2 =
      (runLedgerOps (insert_ledger l id dir chat) rest).2 := rfl

/-- Membership of an id in the ledger survives `insert_ledger`. -/
theorem ledgerHasId_insert (l : Ledger) (id dir chat x : String)
    (h : ledgerHasId l x = true) :
    ledgerHasId (insert_ledger l id dir chat) x = true := by
  simp only [insert_ledger, ledgerHasId, List.any_cons, Bool.or_eq_true]
  by_cases hx : x = id
  · left
    simp [hx]
  · right
    simp only [ledgerHasId, List.any_eq_true] at h ⊢
    obtain ⟨e, he, hid⟩ := h
    refine ⟨e, List.mem_filter.2 ⟨he, ?_⟩, hid⟩
    simp only [beq_iff_eq] at hid
    simp [hid, hx]

/-- Membership of an id in the ledger survives `claim_ledger`. -/
theorem ledgerHasId_claim (l : Ledger) (id dir chat x : String)
    (h : ledgerHasId l x = true) :
    ledgerHasId (claim_ledger l id dir chat).2 x = true := by
  simp only [claim_ledger]
  split
  · exact h
  · simp only [ledgerHasId, List.any_cons, Bool.or_eq_true]
    right
    exact h

/-- Absence of `x` survives writers keyed on a different id. -/
theorem ledgerHasId_claim_ne (l : Ledger) (id dir chat x : String)
    (hx : id ≠ x) (h : ledgerHasId l x = false) :
    ledgerHasId (claim_ledger l id dir chat).2 x = false := by
  simp only [claim_ledger]
  split
  · exact h
  · simp only [ledgerHasId, List.any_cons, Bool.or_eq_false_iff]
    exact ⟨by simpa using hx, h⟩

theorem ledgerHasId_insert_ne (l : Ledger) (id dir chat x : String)
    (hx : id ≠ x) (h : ledgerHasId l x = false) :
    ledgerHasId (insert_ledger l id dir chat) x = false := by
  simp only [insert_ledger, ledgerHasId, List.any_cons, Bool.or_eq_false_iff]
  refine ⟨by simpa using hx, ?_⟩
  simp only [ledgerHasId, List.any_eq_false] at h ⊢
  intro e he
  exact h e (List.mem_of_mem_filter he)

/-- Once `x` is present, no later `claim_ledger` on `x` ever returns `true`. -/
theorem ownedCount_zero_of_present (l : Ledger) (ops : List LedgerOp)
    (x : String) (h : ledgerHasId l x = true) :
    ownedCount x (runLedgerOps l ops).2 = 0 := by
  induction ops generalizing l with
  | nil => simp [runLedgerOps, ownedCount]
  | cons op rest ih =>
      cases op with
      | claim id dir chat =>
          rw [runLedgerOps_claim, ownedCount_cons]
          by_cases hx : id = x
          · subst hx
            have howned : (claim_ledger l id dir chat).1 = false := by
              simp [claim_ledger, h]
            rw [if_neg (by simp [howned])]
            simpa using ih _ (ledgerHasId_claim l id dir chat id h)
          · rw [if_neg (by simp [hx])]
            simpa using ih _ (ledgerHasId_claim l id dir chat x h)
      | insert id dir chat =>
          rw [runLedgerOps_insert]
          exact ih _ (ledgerHasId_insert l id dir chat x h)

/-- After a successful claim the id is present. -/
theorem claim_true_inserts (l : Ledger) (id dir chat : String) :
    ledgerHasId (claim_ledger l id dir chat).2 id = true := by
  simp only [claim_ledger]
  split
  · assumption
  · simp [ledgerHasId]

/-- At most one `claim_ledger` call on `x` in any trace returns `true`. -/
theorem ownedCount_le_one (l : Ledger) (ops : List LedgerOp) (x : String) :
    ownedCount x (runLedgerOps l ops).2 ≤ 1 := by
  induction ops generalizing l with
  | nil => simp [runLedgerOps, ownedCount]
  | cons op rest ih =>
      cases op with
      | claim id dir chat =>
          rw [runLedgerOps_claim, ownedCount_cons]
          split
          · rename_i hcase
            have hx : id = x := hcase.1
            have howned := hcase.2
            subst hx
            have hpres : ledgerHasId (claim_ledger l id dir chat).2 id = true :=
              claim_true_inserts l id dir chat
            have hz := ownedCount_zero_of_present _ rest id hpres
            omega
          · have := ih (claim_ledger l id dir chat).2
            omega
      | insert id dir chat =>
          rw [runLedgerOps_insert]
          exact ih (insert_ledger l id dir chat)

/-- If the first trace operation touching `x` is a `claim_ledger` call and `x`
is initially absent, that call returns `true` and is the unique owner. -/
theorem ownedCount_eq_one_of_first_claim (l : Ledger) (ops : List LedgerOp)
    (x : String) (habs : ledgerHasId l x = false)
    (hfirst : ((ops.find? (fun o => o.opId == x)).map LedgerOp.isClaim) = some true) :
    ownedCount x (runLedgerOps l ops).2 = 1 := by
  induction ops generalizing l with
  | nil => simp [List.find?] at hfirst
  | cons op rest ih =>
      cases op with
      | claim id dir chat =>
          rw [runLedgerOps_claim, ownedCount_cons]
          by_cases hx : id = x
          · subst hx
            have howned : (claim_ledger l id dir chat).1 = true := by
              simp [claim_ledger, habs]
            rw [if_pos ⟨rfl, howned⟩]
            have hz := ownedCount_zero_of_present _ rest id
              (claim_true_inserts l id dir chat)
            omega
          · rw [if_neg (by simp [hx])]
            rw [List.find?_cons_of_neg _ (by simp [LedgerOp.opId, hx])] at hfirst
            simpa using ih _ (ledgerHasId_claim_ne l id dir chat x hx habs) hfirst
      | insert id dir chat =>
          by_cases hx : id = x
          · subst hx
            rw [List.find?_cons_of_pos _ (by simp [LedgerOp.opId])] at hfirst
            simp [LedgerOp.isClaim] at hfirst
          · rw [runLedgerOps_insert]
            rw [List.find?_cons_of_neg _ (by simp [LedgerOp.opId, hx])] at hfirst
            exact ih _ (ledgerHasId_insert_ne l id dir chat x hx habs) hfirst

/-- C1.  In any interleaving of `claim_ledger` and `insert_ledger` calls on an
initially arbitrary store, at most one claim per `message_id` returns `true`
(regardless of the `direction` / `chat_id` arguments); when the id is absent
initially and the first operation touching it is a claim, exactly one claim on
it returns `true` (the inserting call); and a claim returns `true` exactly
when the id is absent at the moment of the call. -/
theorem claim_ledger_at_most_once (l : Ledger) (ops : List LedgerOp) (x : String)
    (habs : ledgerHasId l x = false)
    (hfirst : ((ops.find? (fun o => o.opId == x)).map LedgerOp.isClaim) = some true) :
    ownedCount x (runLedgerOps l ops).2 = 1 ∧
    (∀ l2 ops2 x2, ownedCount x2 (runLedgerOps l2 ops2).2 ≤ 1) ∧
    (∀ l3 id dir chat, (claim_ledger l3 id dir chat).1 = !ledgerHasId l3 id) := by
  refine ⟨ownedCount_eq_one_of_first_claim l ops x habs hfirst,
    fun l2 ops2 x2 => ownedCount_le_one l2 ops2 x2, fun l3 id dir chat => ?_⟩
  simp only [claim_ledger]
  split <;> simp_all

/-- Concrete run of C1: a claim on `"X"`, then an interleaved
`insert_ledger` with a different direction and chat, then a second claim:
exactly the first claim returns `true`. -/
theorem claim_ledger_at_most_once_witness :
    ownedCount "X"
      (runLedgerOps []
        [LedgerOp.claim "X" "inbound" "c1",
         LedgerOp.insert "X" "outbound" "c2",
         LedgerOp.claim "X" "outbound" "c3"]).2 = 1 :=
  (claim_ledger_at_most_once []
    [LedgerOp.claim "X" "inbound" "c1",
     LedgerOp.insert "X" "outbound" "c2",
     LedgerOp.claim "X" "outbound" "c3"] "X" (by decide) (by decide)).1

/-! ## JSON values

Python objects that can flow out of `json.loads` / into `parse_agent_decision`
are modelled by `JValue`.  The two stdlib decoding primitives used by
`nexus/core/decision.py` — `json.loads` on the whole string and
`JSONDecoder().raw_decode` on a suffix — are parameters (`jloads`, `jraw`). -/

inductive JValue where
  | null
  | bool (b : Bool)
  | num (n : Int)
  | str (s : String)
  | arr (elems : List JValue)
  | obj (fields : List (String × JValue))
  deriving Repr, BEq

/-- Python `dict` lookup on the modelled object fields. -/
def jlookup (fields : List (String × JValue)) (k : String) : Option JValue :=
  (fields.find? (fun p => p.1 == k)).map (·.2)

/-! ## `nexus/core/decision.py` — decision schema and parser -/

structure DecisionCall where
  name : String
  arguments : List (String × JValue)
  deriving Repr, BEq

structure AgentDecision where
  thought : String
  call : Option DecisionCall
  response : Option String
  deriving Repr, BEq

/-- Python `str.find(c)` — index of the first occurrence, `none` for the `-1` result. -/
def pyFindChar (s : String) (c : Char) : Option Nat :=
  s.data.findIdx? (fun d => d == c)

/-- Model of `_extract_json_candidate`: whole-string `json.loads`, then a prefix decode
from the first `\x7b` or `[`. -/
def extract_json_candidate (jloads jraw : String → Option JValue)
    (text : String) : Option JValue :=
  let stripped := pyStrip text
  if stripped = "" then none
  else
    match jloads stripped with
    | some v => some v
    | none =>
        let starts := [pyFindChar stripped '\x7b', pyFindChar stripped '['].filterMap id
        let starts := (starts.eraseDups).mergeSort (· ≤ ·)
        starts.firstM (fun start => jraw ⟨stripped.data.drop start⟩)

/-- Model of `_coerce_payload`: unwrap a string payload via the candidate extractor,
take the head of a non-empty array, and require a JSON object. -/
def coerce_payload (jloads jraw : String → Option JValue) (payload : JValue) :
    Except String (List (String × JValue)) :=
  let payload :=
    match payload with
    | .str s =>
        match extract_json_candidate jloads jraw s with
        | none => Except.error "decision must be valid JSON object"
        | some v => Except.ok v
    | v => Except.ok v
  match payload with
  | .error e => .error e
  | .ok (.arr []) => .error "decision array is empty"
  | .ok (.arr (v :: _)) =>
      match v with
      | .obj fields => .ok fields
      | _ => .error "decision must be a JSON object"
  | .ok (.obj fields) => .ok fields
  | .ok _ => .error "decision must be a JSON object"

/-- Pydantic validation of `DecisionCall` (`name` non-empty after strip,
`arguments` an object defaulting to `\x7b\x7d`). -/
def validateDecisionCall (v : JValue) : Except String DecisionCall :=
  match v with
  | .obj fields =>
      match jlookup fields "name" with
      | some (.str s) =>
          let n := pyStrip s
          if n = "" then .error "call.name must not be empty"
          else
            match jlookup fields "arguments" with
            | none => .ok ⟨n, []⟩
            | some (.obj a) => .ok ⟨n, a⟩
            | some _ => .error "call.arguments must be an object"
      | some _ => .error "call.name must be a string"
      | none => .error "call.name is required"
  | _ => .error "call must be an object"

/-- A field counts as present for the exclusivity check when it is supplied
and not JSON `null` (pydantic turns an explicit `null` into the `None`
default for both optional fields). -/
def fieldPresent (fields : List (String × JValue)) (k : String) : Bool :=
  match jlookup fields k with
  | none => false
  | some .null => false
  | some _ => true

/-- Pydantic validation of the optional `call` field: missing or `null` is
`None`; anything else must validate as a `DecisionCall`. -/
def validateCallField (fields : List (String × JValue)) :
    Except String (Option DecisionCall) :=
  match jlookup fields "call" with
  | none => .ok none
  | some .null => .ok none
  | some v => (validateDecisionCall v).map some

/-- Pydantic validation of the optional `response` field: missing or `null`
is `None`; otherwise a string that is non-empty after strip. -/
def validateResponseField (fields : List (String × JValue)) :
    Except String (Option String) :=
  match jlookup fields "response" with
  | none => .ok none
  | some .null => .ok none
  | some (.str r) =>
      let r2 := pyStrip r
      if r2 = "" then .error "response must not be empty" else .ok (some r2)
  | some _ => .error "response must be a string"

/-- Pydantic validation of `AgentDecision`: non-empty stripped `thought`,
optional `call` / `response`, and the after-validator requiring exactly one
of the two. -/
def validateAgentDecision (fields : List (String × JValue)) :
    Except String AgentDecision :=
  match jlookup fields "thought" with
  | some (.str s) =>
      let t := pyStrip s
      if t = "" then .error "thought must not be empty"
      else
        match validateCallField fields with
        | .error e => .error e
        | .ok callOpt =>
            match validateResponseField fields with
            | .error e => .error e
            | .ok respOpt =>
                if callOpt.isSome == respOpt.isSome then
                  .error "exactly one of call or response is required"
                else .ok ⟨t, callOpt, respOpt⟩
  | some _ => .error "thought must be a string"
  | none => .error "thought is required"

/-- Model of `parse_agent_decision`: coerce the payload, then validate; every `.error`
is a raised `DecisionParseError`. -/
def parse_agent_decision (jloads jraw : String → Option JValue)
    (payload : JValue) : Except String AgentDecision :=
  match coerce_payload jloads jraw payload with
  | .error e => .error e
  | .ok fields => validateAgentDecision fields

theorem exceptMap_some_ok {e : Except String DecisionCall}
    {o : Option DecisionCall} (h : e.map some = .ok o) : o.isSome = true := by
  cases e with
  | error a => simp [Except.map] at h
  | ok c => simp only [Except.map, Except.ok.injEq] at h; simp [← h]

theorem validateCallField_present (fields : List (String × JValue))
    (o : Option DecisionCall) (h : validateCallField fields = .ok o) :
    fieldPresent fields "call" = o.isSome := by
  unfold validateCallField at h
  cases hj : jlookup fields "call" with
  | none =>
      rw [hj] at h
      simp only [Except.ok.injEq] at h
      simp [fieldPresent, hj, ← h]
  | some v =>
      rw [hj] at h
      cases v with
      | null =>
          simp only [Except.ok.injEq] at h
          simp [fieldPresent, hj, ← h]
      | str s => dsimp only at h; simp [fieldPresent, hj, exceptMap_some_ok h]
      | bool b => dsimp only at h; simp [fieldPresent, hj, exceptMap_some_ok h]
      | num n => dsimp only at h; simp [fieldPresent, hj, exceptMap_some_ok h]
      | arr xs => dsimp only at h; simp [fieldPresent, hj, exceptMap_some_ok h]
      | obj fs => dsimp only at h; simp [fieldPresent, hj, exceptMap_some_ok h]

theorem validateResponseField_present (fields : List (String × JValue))
    (o : Option String) (h : validateResponseField fields = .ok o) :
    fieldPresent fields "response" = o.isSome := by
  unfold validateResponseField at h
  cases hj : jlookup fields "response" with
  | none =>
      rw [hj] at h
      simp only [Except.ok.injEq] at h
      simp [fieldPresent, hj, ← h]
  | some v =>
      rw [hj] at h
      cases v with
      | null =>
          simp only [Except.ok.injEq] at h
          simp [fieldPresent, hj, ← h]
      | str r =>
          dsimp only at h
          by_cases hr : pyStrip r = ""
          · rw [if_pos hr] at h
            simp at h
          · rw [if_neg hr] at h
            simp only [Except.ok.injEq] at h
            simp [fieldPresent, hj, ← h]
      | bool b => dsimp only at h; simp at h
      | num n => dsimp only at h; simp at h
      | arr xs => dsimp only at h; simp at h
      | obj fs => dsimp only at h; simp at h

theorem validateAgentDecision_ok (fields : List (String × JValue))
    (d : AgentDecision) (h : validateAgentDecision fields = .ok d) :
    d.thought ≠ "" ∧ d.call.isSome = !d.response.isSome ∧
    (∃ s, jlookup fields "thought" = some (.str s) ∧ d.thought = pyStrip s) ∧
    fieldPresent fields "call" = d.call.isSome ∧
    fieldPresent fields "response" = d.response.isSome := by
  unfold validateAgentDecision at h
  cases hjt : jlookup fields "thought" with
  | none => rw [hjt] at h; simp at h
  | some vt =>
      rw [hjt] at h
      cases vt with
      | str s =>
          simp only at h
          by_cases ht : pyStrip s = ""
          · rw [if_pos ht] at h; simp at h
          · rw [if_neg ht] at h
            cases hc : validateCallField fields with
            | error e => rw [hc] at h; simp at h
            | ok callOpt =>
                rw [hc] at h
                cases hr : validateResponseField fields with
                | error e => rw [hr] at h; simp at h
                | ok respOpt =>
                    rw [hr] at h
                    simp only at h
                    by_cases hexcl : (callOpt.isSome == respOpt.isSome) = true
                    · rw [if_pos hexcl] at h; simp at h
                    · rw [if_neg hexcl] at h
                      simp only [Except.ok.injEq] at h
                      subst h
                      refine ⟨ht, ?_, ⟨s, rfl, rfl⟩,
                        validateCallField_present fields callOpt hc,
                        validateResponseField_present fields respOpt hr⟩
                      simp only [beq_iff_eq] at hexcl
                      cases hco : callOpt.isSome <;> cases hro : respOpt.isSome <;>
                        simp_all
      | null => simp at h
      | bool b => simp at h
      | num n => simp at h
      | arr xs => simp at h
      | obj fs => simp at h

/-- C4.  Whatever the behaviour of the stdlib JSON decoders, every decision
`parse_agent_decision` returns has a non-empty `thought` and exactly one of
`call` / `response`; moreover the coerced payload object itself carried a
non-empty-after-strip `thought` string and exactly one of the two action
fields (present and non-null).  Every other payload yields a
`DecisionParseError` (the `.error` branch), since the parser returns in no
other way. -/
theorem parse_agent_decision_exclusive (jloads jraw : String → Option JValue)
    (payload : JValue) (d : AgentDecision)
    (h : parse_agent_decision jloads jraw payload = .ok d) :
    d.thought ≠ "" ∧
    d.call.isSome = !d.response.isSome ∧
    ∃ fields, coerce_payload jloads jraw payload = .ok fields ∧
      (∃ s, jlookup fields "thought" = some (.str s) ∧ pyStrip s ≠ "") ∧
      fieldPresent fields "call" = !fieldPresent fields "response" := by
  unfold parse_agent_decision at h
  split at h
  · exact absurd h (by simp)
  case _ fields hco =>
    obtain ⟨h1, h2, ⟨s, hs, hts⟩, h4, h5⟩ := validateAgentDecision_ok fields d h
    refine ⟨h1, h2, fields, hco, ⟨s, hs, ?_⟩, ?_⟩
    · rw [← hts]; exact h1
    · rw [h4, h5, h2]

/-- Concrete run of C4: a payload with a thought and only a `response` parses,
and the parsed decision carries no call. -/
theorem parse_agent_decision_exclusive_witness :
    (JValue.obj [("thought", .str " ok "), ("response", .str "done")] |>
      parse_agent_decision (fun _ => none) (fun _ => none)) =
        .ok ⟨"ok", none, some "done"⟩ ∧
    (⟨"ok", none, some "done"⟩ : AgentDecision).call.isSome =
      !(⟨"ok", none, some "done"⟩ : AgentDecision).response.isSome := by
  constructor
  · rfl
  · exact (parse_agent_decision_exclusive (fun _ => none) (fun _ => none)
      (JValue.obj [("thought", .str " ok "), ("response", .str "done")])
      ⟨"ok", none, some "done"⟩ rfl).2.1


/-! ## `nexus/memory/retrieval.py` — section retrieval

`split_sections`, `score_section` and `select_relevant_sections`, with
Python `sorted(..., reverse=True)` modelled as a stable insertion sort on
`(score, section)` pairs under the reversed tuple order. -/

/-- Python `str.splitlines` restricted to `\n` terminators (split on newlines, no
trailing empty line). -/
def splitOnNl (cs : List Char) : List (List Char) :=
  match cs with
  | [] => [[]]
  | c :: rest =>
      match splitOnNl rest with
      | [] => [[]]
      | h :: t => if c = '\n' then [] :: h :: t else (c :: h) :: t

def pySplitlines (s : String) : List String :=
  match s.data with
  | [] => []
  | cs =>
      let parts := splitOnNl cs
      let parts := if cs.getLast? = some '\n' then parts.dropLast else parts
      parts.map (fun l => ⟨l⟩)

/-- Model of `split_sections`: cut the memory text at lines starting with `#`, strip
each chunk, drop empty chunks. -/
def split_sections (memory_text : String) : List String :=
  let step := fun (st : List String × List String) (line : String) =>
    if pyStartsWith line "#" ∧ st.2 ≠ [] then
      (st.1 ++ [pyStrip (String.intercalate "\n" st.2)], [line])
    else (st.1, st.2 ++ [line])
  let fin := (pySplitlines memory_text).foldl step ([], [])
  let sections :=
    if fin.2 ≠ [] then fin.1 ++ [pyStrip (String.intercalate "\n" fin.2)]
    else fin.1
  sections.filter (· ≠ "")

/-- A character matched by the token pattern `[A-Za-z0-9_]+`. -/
def isWordChar (c : Char) : Bool :=
  ('a' ≤ c && c ≤ 'z') || ('A' ≤ c && c ≤ 'Z') || ('0' ≤ c && c ≤ '9') || c = '_'

/-- Python `re.findall` of `[A-Za-z0-9_]+`: the maximal word-character runs. -/
def wordRuns (cs : List Char) : List String :=
  let step := fun (st : List String × List Char) (c : Char) =>
    if isWordChar c then (st.1, st.2 ++ [c])
    else if st.2 ≠ [] then (st.1 ++ [(⟨st.2⟩ : String)], ([] : List Char))
    else st
  let fin := cs.foldl step ([], [])
  if fin.2 ≠ [] then fin.1 ++ [(⟨fin.2⟩ : String)] else fin.1

/-- Python `hay.count(needle)` — non-overlapping occurrences, scanning left
to right (fuelled by the haystack length, which suffices because every step
consumes at least one haystack character when the needle is non-empty). -/
def pyCountAux : Nat → List Char → List Char → Nat
  | 0, _, _ => 0
  | fuel + 1, hay, needle =>
      match hay with
      | [] => 0
      | c :: rest =>
          if needle.isPrefixOf (c :: rest) then
            1 + pyCountAux fuel ((c :: rest).drop needle.length) needle
          else pyCountAux fuel rest needle

def pyCount (hay needle : List Char) : Nat :=
  if needle = [] then hay.length + 1 else pyCountAux hay.length hay needle

/-- Model of `score_section`: term frequency of the query tokens longer than two
characters in the lower-cased section. -/
def score_section (s : String) (query : String) : Nat :=
  let tokens := (wordRuns (pyLower query).data).filter (fun t => 2 < t.data.length)
  if tokens = [] then 0
  else
    let lower := pyLower s
    (tokens.map (fun t => pyCount lower.data t.data)).sum

/-- Python string comparison: lexicographic on code points. -/
def pyStrLtChars : List Char → List Char → Bool
  | [], [] => false
  | [], _ :: _ => true
  | _ :: _, [] => false
  | a :: as, b :: bs =>
      if a < b then true else if b < a then false else pyStrLtChars as bs

def pyStrLt (a b : String) : Bool :=
  pyStrLtChars a.data b.data

/-- The Python tuple order on `(score, section)` pairs (strings compared
lexicographically by code point). -/
def pyPairLt (a b : Nat × String) : Prop :=
  a.1 < b.1 ∨ (a.1 = b.1 ∧ pyStrLt a.2 b.2 = true)

instance pyPairLt.instDecidable : DecidableRel pyPairLt := fun a b => by
  unfold pyPairLt
  infer_instance

/-- Whether `a` may stay in front of `b` in `sorted(..., reverse=True)`:
not strictly smaller. -/
def pyGeKey (a b : Nat × String) : Prop := ¬ pyPairLt a b

instance pyGeKey.instDecidable : DecidableRel pyGeKey := fun a b => by
  unfold pyGeKey
  infer_instance

/-- Python `sorted(pairs, reverse=True)`: stable descending sort on the tuple
order. -/
def pySortedDesc (l : List (Nat × String)) : List (Nat × String) :=
  l.insertionSort pyGeKey

/-- Model of `select_relevant_sections`: rank by `(score, section)` descending, keep
the positive scores, fall back to the first `limit` sections. -/
def select_relevant_sections (memory_text query : String) (limit : Nat := 3) :
    List String :=
  let sections := split_sections memory_text
  let ranked := pySortedDesc (sections.map (fun s => (score_section s query, s)))
  let selected := (ranked.filter (fun p => 0 < p.1)).map (·.2)
  if selected ≠ [] then selected.take limit else sections.take limit

/-- The selector the claim describes: identical except that ties between
equal scores are broken by document order (a stable descending sort on the
score alone). -/
def select_relevant_sections_claim (memory_text query : String)
    (limit : Nat := 3) : List String :=
  let sections := split_sections memory_text
  let ranked := (sections.map (fun s => (score_section s query, s))).insertionSort
    (fun a b => ¬ a.1 < b.1)
  let selected := (ranked.filter (fun p => 0 < p.1)).map (·.2)
  if selected ≠ [] then selected.take limit else sections.take limit

/-- C7 counterexample.  Two sections tie at score 1 for the query `"foo"`;
document order would return the first (`"# a…"`), but the code sorts the
tied pair by the section text descending and returns `"# b…"`. -/
theorem select_relevant_sections_tie_counterexample :
    split_sections "# a\nfoo\n# b\nfoo" = ["# a\nfoo", "# b\nfoo"] ∧
    score_section "# a\nfoo" "foo" = 1 ∧
    score_section "# b\nfoo" "foo" = 1 ∧
    select_relevant_sections "# a\nfoo\n# b\nfoo" "foo" 1 = ["# b\nfoo"] ∧
    select_relevant_sections_claim "# a\nfoo\n# b\nfoo" "foo" 1 = ["# a\nfoo"] ∧
    select_relevant_sections "# a\nfoo\n# b\nfoo" "foo" 1 ≠
      select_relevant_sections_claim "# a\nfoo\n# b\nfoo" "foo" 1 := by
  refine ⟨?_, ?_, ?_, ?_, ?_, ?_⟩ <;> decide

theorem pyStrLtChars_asymm : ∀ x y : List Char,
    pyStrLtChars x y = true → pyStrLtChars y x = true → False := by
  intro x
  induction x with
  | nil =>
      intro y h1 h2
      cases y with
      | nil => simp [pyStrLtChars] at h1
      | cons b bs => simp [pyStrLtChars] at h2
  | cons a as ih =>
      intro y h1 h2
      cases y with
      | nil => simp [pyStrLtChars] at h1
      | cons b bs =>
          simp only [pyStrLtChars] at h1 h2
          by_cases hab : a < b
          · simp [hab, lt_asymm hab] at h2
          · by_cases hba : b < a
            · simp [hab, hba] at h1
            · simp only [hab, hba, if_false] at h1 h2
              exact ih bs h1 h2

theorem pyStrLtChars_trans : ∀ x y z : List Char,
    pyStrLtChars x y = true → pyStrLtChars y z = true →
    pyStrLtChars x z = true := by
  intro x
  induction x with
  | nil =>
      intro y z h1 h2
      cases y with
      | nil => simp [pyStrLtChars] at h1
      | cons b bs =>
          cases z with
          | nil => simp [pyStrLtChars] at h2
          | cons c cs => simp [pyStrLtChars]
  | cons a as ih =>
      intro y z h1 h2
      cases y with
      | nil => simp [pyStrLtChars] at h1
      | cons b bs =>
          cases z with
          | nil => simp [pyStrLtChars] at h2
          | cons c cs =>
              simp only [pyStrLtChars] at h1 h2 ⊢
              by_cases hab : a < b
              · by_cases hbc : b < c
                · simp [lt_trans hab hbc]
                · by_cases hcb : c < b
                  · simp [hbc, hcb] at h2
                  · have hbc2 : b = c := le_antisymm (not_lt.mp hcb) (not_lt.mp hbc)
                    subst hbc2
                    simp [hab]
              · by_cases hba : b < a
                · simp [hab, hba] at h1
                · have hab2 : a = b := le_antisymm (not_lt.mp hba) (not_lt.mp hab)
                  subst hab2
                  simp only [lt_irrefl, if_false] at h1
                  by_cases hac : a < c
                  · simp [hac]
                  · by_cases hca : c < a
                    · simp [hac, hca] at h2
                    · simp only [hac, hca, if_false] at h2 ⊢
                      exact ih bs cs h1 h2

theorem pyStrLtChars_tot : ∀ x y : List Char,
    pyStrLtChars x y = true ∨ pyStrLtChars y x = true ∨ x = y := by
  intro x
  induction x with
  | nil =>
      intro y
      cases y with
      | nil => right; right; rfl
      | cons b bs => left; simp [pyStrLtChars]
  | cons a as ih =>
      intro y
      cases y with
      | nil => right; left; simp [pyStrLtChars]
      | cons b bs =>
          by_cases hab : a < b
          · left; simp [pyStrLtChars, hab]
          · by_cases hba : b < a
            · right; left; simp [pyStrLtChars, hba]
            · have hab2 : a = b := le_antisymm (not_lt.mp hba) (not_lt.mp hab)
              subst hab2
              rcases ih bs with h | h | h
              · left; simp [pyStrLtChars, h]
              · right; left; simp [pyStrLtChars, h]
              · right; right; rw [h]

theorem pyPairLt_asymm (a b : Nat × String)
    (h1 : pyPairLt a b) (h2 : pyPairLt b a) : False := by
  unfold pyPairLt pyStrLt at h1 h2
  rcases h1 with h1 | ⟨h1e, h1s⟩ <;> rcases h2 with h2 | ⟨h2e, h2s⟩
  · omega
  · omega
  · omega
  · exact pyStrLtChars_asymm _ _ h1s h2s

instance pyGeKey.instIsTotal : IsTotal (Nat × String) pyGeKey := by
  constructor
  intro a b
  by_cases h : pyPairLt a b
  · right
    intro h2
    exact pyPairLt_asymm a b h h2
  · left
    exact h

instance pyGeKey.instIsTrans : IsTrans (Nat × String) pyGeKey := by
  constructor
  intro a b c hab hbc
  unfold pyGeKey pyPairLt pyStrLt at hab hbc ⊢
  push_neg at hab hbc
  intro hac
  have hba : b.1 ≤ a.1 := hab.1
  have hcb : c.1 ≤ b.1 := hbc.1
  rcases hac with hlt | ⟨heq, hstr⟩
  · omega
  · have he1 : a.1 = b.1 := by omega
    have he2 : b.1 = c.1 := by omega
    have hnab := hab.2 he1
    have hnbc := hbc.2 he2
    rcases pyStrLtChars_tot a.2.data b.2.data with h | h | h
    · exact hnab h
    · exact hnbc (pyStrLtChars_trans _ _ _ h hstr)
    · rw [h] at hstr
      exact hnbc hstr

theorem filter_orderedInsert (p : Nat × String → Bool) (a : Nat × String) :
    ∀ l : List (Nat × String), List.Sorted pyGeKey l →
    (l.orderedInsert pyGeKey a).filter p =
      if p a then (l.filter p).orderedInsert pyGeKey a else l.filter p := by
  intro l
  induction l with
  | nil =>
      intro _
      by_cases hpa : p a
      · simp [List.orderedInsert, List.filter_cons, hpa]
      · simp [List.orderedInsert, List.filter_cons, hpa]
  | cons b t ih =>
      intro hs
      have hs2 : List.Sorted pyGeKey t := (List.pairwise_cons.mp hs).2
      have hball : ∀ x ∈ t, pyGeKey b x := (List.pairwise_cons.mp hs).1
      simp only [List.orderedInsert]
      by_cases hr : pyGeKey a b
      · rw [if_pos hr]
        by_cases hpa : p a
        · rw [if_pos hpa]
          rw [List.filter_cons_of_pos hpa]
          cases hfe : (b :: t).filter p with
          | nil => simp [List.orderedInsert]
          | cons x xs =>
              have hx : x ∈ b :: t :=
                List.mem_of_mem_filter (hfe ▸ List.mem_cons_self x xs)
              have hax : pyGeKey a x := by
                rcases List.mem_cons.mp hx with h | h
                · rwa [h]
                · exact IsTrans.trans a b x hr (hball x h)
              simp [List.orderedInsert, hax]
        · rw [if_neg hpa]
          rw [List.filter_cons_of_neg hpa]
      · rw [if_neg hr]
        by_cases hpb : p b
        · rw [List.filter_cons_of_pos hpb, List.filter_cons_of_pos hpb,
            ih hs2]
          by_cases hpa : p a
          · rw [if_pos hpa, if_pos hpa]
            simp [List.orderedInsert, hr]
          · rw [if_neg hpa, if_neg hpa]
        · rw [List.filter_cons_of_neg hpb, List.filter_cons_of_neg hpb,
            ih hs2]

theorem filter_insertionSort (p : Nat × String → Bool) :
    ∀ l : List (Nat × String),
    (l.insertionSort pyGeKey).filter p = (l.filter p).insertionSort pyGeKey := by
  intro l
  induction l with
  | nil => simp [List.insertionSort]
  | cons a t ih =>
      simp only [List.insertionSort]
      rw [filter_orderedInsert p a _ (List.sorted_insertionSort pyGeKey t)]
      by_cases hpa : p a
      · rw [if_pos hpa, ih, List.filter_cons_of_pos hpa]
        simp [List.insertionSort]
      · rw [if_neg hpa, ih, List.filter_cons_of_neg hpa]

/-- C7 (amended).  `select_relevant_sections` scores each markdown section by
the term frequency of the query tokens longer than two characters and returns
the first `limit` sections in document order when no section scores positive;
otherwise it returns the positively-scoring sections sorted descending by the
`(score, section text)` pair — ties between equal scores broken by the
section text in descending code-point order, not by document order —
truncated to `limit`. -/
theorem select_relevant_sections_topn (m q : String) (limit : Nat) :
    (((split_sections m).map (fun s => (score_section s q, s))).filter
        (fun p => 0 < p.1) = [] →
      select_relevant_sections m q limit = (split_sections m).take limit) ∧
    (((split_sections m).map (fun s => (score_section s q, s))).filter
        (fun p => 0 < p.1) ≠ [] →
      select_relevant_sections m q limit =
        (((((split_sections m).map (fun s => (score_section s q, s))).filter
            (fun p => 0 < p.1)).insertionSort pyGeKey).map (·.2)).take limit) := by
  constructor
  · intro hempty
    simp only [select_relevant_sections, pySortedDesc]
    rw [filter_insertionSort, hempty]
    simp [List.insertionSort]
  · intro hne
    simp only [select_relevant_sections, pySortedDesc]
    rw [filter_insertionSort]
    have hlen :
        ((((split_sections m).map (fun s => (score_section s q, s))).filter
          (fun p => 0 < p.1)).insertionSort pyGeKey).length =
        (((split_sections m).map (fun s => (score_section s q, s))).filter
          (fun p => 0 < p.1)).length :=
      (List.perm_insertionSort pyGeKey _).length_eq
    have hsne :
        (((split_sections m).map (fun s => (score_section s q, s))).filter
          (fun p => 0 < p.1)).insertionSort pyGeKey ≠ [] := by
      intro hcontra
      apply hne
      have := hlen
      rw [hcontra] at this
      exact List.length_eq_zero.mp this.symm
    rw [if_pos (by simpa using hsne)]

/-- Concrete run of the amended C7: one positive section beats one
zero-scoring section. -/
theorem select_relevant_sections_topn_witness :
    select_relevant_sections "# a\nfoo\n# b\nbar" "foo" 3 = ["# a\nfoo"] := by
  have h := (select_relevant_sections_topn "# a\nfoo\n# b\nbar" "foo" 3).2
    (by decide)
  rw [h]
  decide

/-! ## `nexus/core/policy.py` — pending actions

Wall-clock instants are integer seconds (`Int`); `timedelta(minutes=m)` is
`m * 60`.  The `pending_actions` table is a list of rows; `INSERT OR REPLACE`
is keyed on `action_id`. -/

/-- The `proposed_args` payload `{tool, args}` serialized into the row. -/
structure ProposedArgs where
  tool : String
  args : List (String × JValue)
  deriving Repr, BEq

/-- Model of `nexus.core.protocol.PendingAction`. -/
structure PendingAction where
  actionId : String
  toolName : String
  riskLevel : String
  expiresAt : Int
  proposedArgs : ProposedArgs
  status : String
  chatId : String
  deriving Repr, BEq

/-- A `pending_actions` row (the model plus the `created_at` column the
database adds on insert). -/
structure PendingRow where
  actionId : String
  toolName : String
  riskLevel : String
  expiresAt : Int
  proposedArgs : ProposedArgs
  status : String
  chatId : String
  createdAt : Int
  deriving Repr, BEq

def PendingRow.toAction (r : PendingRow) : PendingAction :=
  ⟨r.actionId, r.toolName, r.riskLevel, r.expiresAt, r.proposedArgs, r.status,
    r.chatId⟩

/-- Model of `Database.insert_pending_action` — `INSERT OR REPLACE` keyed on
`action_id`, stamping `created_at` with the current time. -/
def insert_pending_action (rows : List PendingRow) (a : PendingAction)
    (now : Int) : List PendingRow :=
  ⟨a.actionId, a.toolName, a.riskLevel, a.expiresAt, a.proposedArgs, a.status,
    a.chatId, now⟩ :: rows.filter (fun r => r.actionId ≠ a.actionId)

/-- Model of `Database.get_latest_pending_action` — the pending-status row of the
chat with the greatest `created_at` (ties resolved to the first row scanned,
as `ORDER BY` leaves ties unspecified). -/
def get_latest_pending_action (rows : List PendingRow) (chat : String) :
    Option PendingRow :=
  (rows.filter (fun r => r.status == "pending" && r.chatId == chat)).foldl
    (fun best r =>
      match best with
      | none => some r
      | some b => if b.createdAt < r.createdAt then some r else best)
    none

/-- Model of `Database.update_pending_status` — `UPDATE ... WHERE action_id = ?`. -/
def update_pending_status (rows : List PendingRow) (aid st : String) :
    List PendingRow :=
  rows.map (fun r => if r.actionId == aid then { r with status := st } else r)

/-- Model of `PolicyEngine.create_pending_action`; `new_id` stands for the fresh
`uuid4()`. -/
def create_pending_action (rows : List PendingRow) (now : Int) (new_id : String)
    (chat_id tool_name risk_level : String) (proposed_args : ProposedArgs)
    (ttl_minutes : Int := 10) : PendingAction × List PendingRow :=
  let action : PendingAction :=
    { actionId := new_id
      toolName := tool_name
      riskLevel :=
        if risk_level = "low" ∨ risk_level = "medium" ∨ risk_level = "high"
        then risk_level else "medium"
      expiresAt := now + ttl_minutes * 60
      proposedArgs := proposed_args
      status := "pending"
      chatId := chat_id }
  (action, insert_pending_action rows action now)

def YES : List String := ["y", "yes", "approve", "confirm", "proceed"]

def NO : List String := ["n", "no", "deny", "cancel", "stop"]

/-- Model of `PolicyEngine.parse_confirmation`. -/
def parse_confirmation (text : String) : Option String :=
  let lowered := pyLower (pyStrip text)
  if YES.contains lowered then some "approved"
  else if NO.contains lowered then some "denied"
  else none

/-- Model of `PolicyEngine.resolve_pending_action_from_text`: returns the resolved
action (if any) and the updated `pending_actions` table. -/
def resolve_pending_action_from_text (rows : List PendingRow) (now : Int)
    (chat_id text : String) : Option PendingAction × List PendingRow :=
  match parse_confirmation text with
  | none => (none, rows)
  | some decision =>
      match get_latest_pending_action rows chat_id with
      | none => (none, rows)
      | some pending =>
          if pending.expiresAt < now then
            (none, update_pending_status rows pending.actionId "expired")
          else
            (some { pending.toAction with status := decision },
              update_pending_status rows pending.actionId decision)

/-- C10.  Every pending action built by `create_pending_action` has a risk
level in `{low, medium, high}` (anything else is coerced to `medium`), an
`expires_at` exactly `ttl_minutes` (whose default is 10) after the creation
instant, and is persisted unchanged with `created_at` equal to that instant. -/
theorem create_pending_action_invariants (rows : List PendingRow) (now : Int)
    (new_id chat_id tool_name risk_level : String)
    (proposed_args : ProposedArgs) (ttl_minutes : Int) :
    ((create_pending_action rows now new_id chat_id tool_name risk_level
        proposed_args ttl_minutes).1.riskLevel = "low" ∨
     (create_pending_action rows now new_id chat_id tool_name risk_level
        proposed_args ttl_minutes).1.riskLevel = "medium" ∨
     (create_pending_action rows now new_id chat_id tool_name risk_level
        proposed_args ttl_minutes).1.riskLevel = "high") ∧
    (¬ (risk_level = "low" ∨ risk_level = "medium" ∨ risk_level = "high") →
      (create_pending_action rows now new_id chat_id tool_name risk_level
        proposed_args ttl_minutes).1.riskLevel = "medium") ∧
    (create_pending_action rows now new_id chat_id tool_name risk_level
        proposed_args ttl_minutes).1.expiresAt = now + ttl_minutes * 60 ∧
    (create_pending_action rows now new_id chat_id tool_name risk_level
        proposed_args ttl_minutes).1.status = "pending" ∧
    (create_pending_action rows now new_id chat_id tool_name risk_level
        proposed_args ttl_minutes).2 =
      insert_pending_action rows
        (create_pending_action rows now new_id chat_id tool_name risk_level
          proposed_args ttl_minutes).1 now ∧
    (create_pending_action rows now new_id chat_id tool_name risk_level
        proposed_args) =
      create_pending_action rows now new_id chat_id tool_name risk_level
        proposed_args 10 := by
  refine ⟨?_, ?_, rfl, rfl, rfl, rfl⟩
  · by_cases h : risk_level = "low" ∨ risk_level = "medium" ∨ risk_level = "high"
    · rcases h with h | h | h <;>
        simp [create_pending_action, h]
    · right
      left
      simp [create_pending_action, h]
  · intro h
    simp [create_pending_action, h]

/-- Concrete run of C10: an out-of-range risk level is stored as `medium`. -/
theorem create_pending_action_invariants_witness :
    (create_pending_action [] 0 "a1" "chat" "files" "extreme"
      ⟨"files", []⟩ 10).1.riskLevel = "medium" :=
  (create_pending_action_invariants [] 0 "a1" "chat" "files" "extreme"
    ⟨"files", []⟩ 10).2.1 (by decide)

/-- Resolving an expired pending action marks exactly that action `expired`
and resolves to nothing. -/
theorem resolve_expired_helper (rows : List PendingRow) (now : Int)
    (chat_id text : String) (p : PendingRow)
    (hconf : (parse_confirmation text).isSome = true)
    (hlatest : get_latest_pending_action rows chat_id = some p)
    (hexp : p.expiresAt < now) :
    (resolve_pending_action_from_text rows now chat_id text).1 = none ∧
    (resolve_pending_action_from_text rows now chat_id text).2 =
      update_pending_status rows p.actionId "expired" ∧
    ∀ r ∈ (resolve_pending_action_from_text rows now chat_id text).2,
      r.actionId = p.actionId → r.status = "expired" := by
  unfold resolve_pending_action_from_text
  cases hpc : parse_confirmation text with
  | none => rw [hpc] at hconf; simp at hconf
  | some decision =>
      rw [hlatest]
      dsimp only
      rw [if_pos hexp]
      refine ⟨rfl, rfl, ?_⟩
      intro r hr hrid
      unfold update_pending_status at hr
      obtain ⟨r0, hr0, hmap⟩ := List.mem_map.mp hr
      by_cases hid : r0.actionId == p.actionId
      · rw [if_pos hid] at hmap
        rw [← hmap]
      · rw [if_neg hid] at hmap
        rw [← hmap] at hrid
        simp [hrid] at hid

/-! ## `nexus/tools/scheduler.py` — the `when` trigger grammar

`dateutil.parser.parse` is a parameter `pdt`; a `none` result stands for the
exception it raises on unparseable input.  Its output is abstracted to the
fields `_parse_trigger` reads: `hour`, `minute` and `tzinfo`. -/

/-- The slice of a `dateutil` datetime that `_parse_trigger` consumes. -/
structure PyDateTime where
  hour : Nat
  minute : Nat
  tzinfo : Option String
  stamp : Int
  deriving Repr, BEq, DecidableEq

/-- An APScheduler trigger as configured by `_parse_trigger`. -/
inductive Trigger where
  | cronWeekly (day : String) (hour minute : Nat) (tz : String)
  | cronDaily (hour minute : Nat) (tz : String)
  | cronWeekdays (hour minute : Nat) (tz : String)
  | date (dt : PyDateTime)
  deriving Repr, BEq, DecidableEq

def DAY_MAP (d : String) : String :=
  if d = "monday" then "mon"
  else if d = "tuesday" then "tue"
  else if d = "wednesday" then "wed"
  else if d = "thursday" then "thu"
  else if d = "friday" then "fri"
  else if d = "saturday" then "sat"
  else "sun"

/-- Consume a literal. -/
def dropPrefixChars (cs pre : List Char) : Option (List Char) :=
  if pre.isPrefixOf cs then some (cs.drop pre.length) else none

/-- Consume `\s+` (greedy: the maximal whitespace run, at least one char). -/
def dropSpaces1 (cs : List Char) : Option (List Char) :=
  match cs with
  | c :: _ => if isPySpace c then some (cs.dropWhile isPySpace) else none
  | [] => none

/-- Consume `\s+(.+)` at the end of the pattern: at least one whitespace
character, then capture the maximal run of non-newline characters (the input
is stripped, so the tail never consists of whitespace only). -/
def matchTimeTail (cs : List Char) : Option String :=
  match dropSpaces1 cs with
  | none => none
  | some rest =>
      match rest with
      | [] => none
      | _ :: _ => some ⟨rest.takeWhile (· ≠ '\n')⟩

def WEEKDAY_NAMES : List String :=
  ["monday", "tuesday", "wednesday", "thursday", "friday", "saturday", "sunday"]

/-- The `(monday|tuesday|…|sunday)` alternation (no name is a prefix of
another, so first-match order is immaterial). -/
def matchDayAlt (cs : List Char) : Option (String × List Char) :=
  WEEKDAY_NAMES.firstM
    (fun d => (dropPrefixChars cs d.data).map (fun rest => (d, rest)))

/-- Model of `re.match(r"every\s+(<day>)\s+at\s+(.+)", lowered)`. -/
def matchWeekly (lowered : String) : Option (String × String) :=
  match dropPrefixChars lowered.data "every".data with
  | none => none
  | some cs =>
  match dropSpaces1 cs with
  | none => none
  | some cs =>
  match matchDayAlt cs with
  | none => none
  | some (day, cs) =>
  match dropSpaces1 cs with
  | none => none
  | some cs =>
  match dropPrefixChars cs "at".data with
  | none => none
  | some cs => (matchTimeTail cs).map (fun t => (day, t))

/-- Model of `re.match(r"every\s+day\s+at\s+(.+)", lowered)`. -/
def matchDaily (lowered : String) : Option String :=
  match dropPrefixChars lowered.data "every".data with
  | none => none
  | some cs =>
  match dropSpaces1 cs with
  | none => none
  | some cs =>
  match dropPrefixChars cs "day".data with
  | none => none
  | some cs =>
  match dropSpaces1 cs with
  | none => none
  | some cs =>
  match dropPrefixChars cs "at".data with
  | none => none
  | some cs => matchTimeTail cs

/-- Model of `re.match(r"every\s+weekday\s+at\s+(.+)", lowered)`. -/
def matchWeekdayCron (lowered : String) : Option String :=
  match dropPrefixChars lowered.data "every".data with
  | none => none
  | some cs =>
  match dropSpaces1 cs with
  | none => none
  | some cs =>
  match dropPrefixChars cs "weekday".data with
  | none => none
  | some cs =>
  match dropSpaces1 cs with
  | none => none
  | some cs =>
  match dropPrefixChars cs "at".data with
  | none => none
  | some cs => matchTimeTail cs

/-- Model of `SchedulerTool._parse_trigger`.  The three cron syntaxes are matched, in
order, against the trimmed lower-cased text; anything else is handed to the
absolute date/time parser (on the original text, as in the source), and a
naive result is localized to the scheduler timezone. -/
def parse_trigger (pdt : String → Option PyDateTime) (tz : String)
    (when_text : String) : Option Trigger :=
  let lowered := pyLower (pyStrip when_text)
  match matchWeekly lowered with
  | some (day, timeStr) =>
      (pdt timeStr).map (fun dt => .cronWeekly (DAY_MAP day) dt.hour dt.minute tz)
  | none =>
  match matchDaily lowered with
  | some timeStr =>
      (pdt timeStr).map (fun dt => .cronDaily dt.hour dt.minute tz)
  | none =>
  match matchWeekdayCron lowered with
  | some timeStr =>
      (pdt timeStr).map (fun dt => .cronWeekdays dt.hour dt.minute tz)
  | none =>
      (pdt when_text).map (fun dt =>
        .date (if dt.tzinfo.isNone then { dt with tzinfo := some tz } else dt))

/-- C8.  The `when` parser classifies the trimmed lower-cased text against
the three `every … at …` syntaxes in order, first match wins:
`every <weekday> at <time>` becomes a weekly cron on `DAY_MAP` of that
weekday, `every day at <time>` a daily cron, `every weekday at <time>` a
Mon–Fri cron, and any other string an absolute date/time in which a naive
(timezone-free) result is localized to the configured timezone; which syntax
applies — and the resulting cron trigger — depends only on the trimmed
lower-cased text. -/
theorem parse_trigger_grammar (pdt : String → Option PyDateTime) (tz : String)
    (w : String) :
    (∀ day t, matchWeekly (pyLower (pyStrip w)) = some (day, t) →
      parse_trigger pdt tz w =
        (pdt t).map (fun dt => .cronWeekly (DAY_MAP day) dt.hour dt.minute tz)) ∧
    (∀ t, matchWeekly (pyLower (pyStrip w)) = none →
      matchDaily (pyLower (pyStrip w)) = some t →
      parse_trigger pdt tz w =
        (pdt t).map (fun dt => .cronDaily dt.hour dt.minute tz)) ∧
    (∀ t, matchWeekly (pyLower (pyStrip w)) = none →
      matchDaily (pyLower (pyStrip w)) = none →
      matchWeekdayCron (pyLower (pyStrip w)) = some t →
      parse_trigger pdt tz w =
        (pdt t).map (fun dt => .cronWeekdays dt.hour dt.minute tz)) ∧
    (matchWeekly (pyLower (pyStrip w)) = none →
      matchDaily (pyLower (pyStrip w)) = none →
      matchWeekdayCron (pyLower (pyStrip w)) = none →
      parse_trigger pdt tz w =
        (pdt w).map (fun dt =>
          .date (if dt.tzinfo.isNone then { dt with tzinfo := some tz } else dt))) ∧
    (∀ w2, pyLower (pyStrip w) = pyLower (pyStrip w2) →
      matchWeekly (pyLower (pyStrip w)) ≠ none ∨
      matchDaily (pyLower (pyStrip w)) ≠ none ∨
      matchWeekdayCron (pyLower (pyStrip w)) ≠ none →
      parse_trigger pdt tz w = parse_trigger pdt tz w2) := by
  refine ⟨?_, ?_, ?_, ?_, ?_⟩
  · intro day t hw
    simp only [parse_trigger]
    rw [hw]
  · intro t hw hd
    simp only [parse_trigger]
    rw [hw, hd]
  · intro t hw hd hk
    simp only [parse_trigger]
    rw [hw, hd, hk]
  · intro hw hd hk
    simp only [parse_trigger]
    rw [hw, hd, hk]
  · intro w2 heq hsome
    simp only [parse_trigger]
    rw [← heq]
    rcases hsome with h | h | h
    · cases hw : matchWeekly (pyLower (pyStrip w)) with
      | none => exact absurd hw h
      | some p => rfl
    · cases hw : matchWeekly (pyLower (pyStrip w)) with
      | some p => rfl
      | none =>
          cases hd : matchDaily (pyLower (pyStrip w)) with
          | none => exact absurd hd h
          | some t => rfl
    · cases hw : matchWeekly (pyLower (pyStrip w)) with
      | some p => rfl
      | none =>
          cases hd : matchDaily (pyLower (pyStrip w)) with
          | some t => rfl
          | none =>
              cases hk : matchWeekdayCron (pyLower (pyStrip w)) with
              | none => exact absurd hk h
              | some t => rfl

/-- Concrete runs of C8: the four syntaxes, including case-insensitivity and
naive-time localization. -/
theorem parse_trigger_grammar_witness :
    parse_trigger
        (fun s => if s = "9:30" then some ⟨9, 30, none, 0⟩ else none)
        "utc" "  Every Monday at 9:30" =
      some (.cronWeekly "mon" 9 30 "utc") ∧
    parse_trigger
        (fun s => if s = "07:00" then some ⟨7, 0, none, 0⟩ else none)
        "utc" "every day at 07:00" =
      some (.cronDaily 7 0 "utc") ∧
    parse_trigger
        (fun s => if s = "9:15" then some ⟨9, 15, none, 0⟩ else none)
        "utc" "EVERY WEEKDAY AT 9:15" =
      some (.cronWeekdays 9 15 "utc") ∧
    parse_trigger
        (fun s => if s = "2026-01-01 09:00" then some ⟨9, 0, none, 7⟩ else none)
        "utc" "2026-01-01 09:00" =
      some (.date ⟨9, 0, some "utc", 7⟩) := by
  refine ⟨?_, ?_, ?_, ?_⟩
  · rw [(parse_trigger_grammar _ "utc" "  Every Monday at 9:30").1 "monday" "9:30"
      (by decide)]
    decide
  · rw [(parse_trigger_grammar _ "utc" "every day at 07:00").2.1 "07:00"
      (by decide) (by decide)]
    decide
  · rw [(parse_trigger_grammar _ "utc" "EVERY WEEKDAY AT 9:15").2.2.1 "9:15"
      (by decide) (by decide) (by decide)]
    decide
  · rw [(parse_trigger_grammar _ "utc" "2026-01-01 09:00").2.2.2.1
      (by decide) (by decide) (by decide)]
    decide

/-! ## `nexus/core/loop.py` — the orchestrator

External collaborators are fields of `LoopCtx`:

* `redact` — the compiled redaction pass (`NexusLoop._redact`);
* `tools` — `ToolRegistry.execute` (tool bodies are outside the core);
* `llm` — `LLMRouter.complete_json`, indexed by the number of previous calls
  in this loop run and by the complex-task hint;
* `jloads` / `jraw` — the stdlib JSON decoders;
* `attachments_from_artifacts` — `_attachments_from_artifacts`, which
  consults the filesystem.

Fresh `uuid4()` values are drawn from a counter (`freshId`). -/

/-- Split off the part before the first occurrence of `sep`
(Python `s.split(sep, 1)`); `none` means the separator is absent. -/
def splitOnFirst (cs : List Char) (sep : Char) : List Char × Option (List Char) :=
  match cs with
  | [] => ([], none)
  | c :: rest =>
      if c = sep then ([], some rest)
      else
        let r := splitOnFirst rest sep
        (c :: r.1, r.2)

/-- Model of `_normalize_wa_identity`. -/
def normalize_wa_identity (value : String) : String :=
  let raw := pyLower (pyStrip value)
  if raw = "" then ""
  else if ¬ raw.data.contains '@' then ⟨(splitOnFirst raw.data ':').1⟩
  else
    let atSplit := splitOnFirst raw.data '@'
    let user := (splitOnFirst atSplit.1 ':').1
    let domain := atSplit.2.getD []
    if user ≠ [] ∧ domain ≠ [] then ⟨user⟩ ++ "@" ++ (⟨domain⟩ : String)
    else ""

/-- Model of `_wa_user`. -/
def wa_user (value : String) : String :=
  let normalized := normalize_wa_identity value
  if normalized = "" then ""
  else if ¬ normalized.data.contains '@' then normalized
  else ⟨(splitOnFirst normalized.data '@').1⟩

/-- Model of `_wa_sender_matches_chat`. -/
def wa_sender_matches_chat (sender_id chat_id : String) : Bool :=
  let sender_user := wa_user sender_id
  let chat_user := wa_user chat_id
  sender_user ≠ "" && chat_user ≠ "" && sender_user == chat_user

/-- The slice of a bridge media payload that `_media_line` reads. -/
structure MediaItem where
  mtype : Option String
  fileName : Option String
  mimeType : Option String
  localPath : Option String
  sizeBytes : Option Int
  downloadStatus : Option String
  downloadError : Option String
  deriving Repr, BEq, DecidableEq

/-- Model of `nexus.core.protocol.InboundMessage`. -/
structure Inbound where
  id : String
  channel : String
  chatId : String
  senderId : String
  isSelfChat : Bool
  isFromMe : Bool
  text : Option String
  media : List MediaItem
  deriving Repr, BEq, DecidableEq

/-- Model of `nexus.core.protocol.OutboundMessage` (attachments abstracted to their
file names — their contents live outside the core). -/
structure Outbound where
  id : String
  channel : String
  chatId : String
  text : Option String
  attachments : List String
  replyTo : Option String
  deriving Repr, BEq, DecidableEq

/-- Model of `nexus.tools.base.ToolResult` (artifacts abstracted to opaque names). -/
structure ToolResult where
  ok : Bool
  content : String
  artifacts : List String
  requires_confirmation : Bool
  risk_level : String
  deriving Repr, BEq, DecidableEq

/-- A `messages` table row. -/
structure MsgRow where
  id : String
  channel : String
  chatId : String
  senderId : String
  role : String
  text : Option String
  traceId : String
  deriving Repr, BEq, DecidableEq

structure AuditEntry where
  traceId : String
  event : String
  deriving Repr, BEq, DecidableEq

/-- An executed `ToolRegistry.execute` call (instrumentation: the arguments
after injection and whether it ran on the confirmed path). -/
structure ToolCall where
  name : String
  args : List (String × JValue)
  confirmed : Bool
  deriving Repr, BEq

/-- Model of `LLMRouter.complete_json` result: `{ok, content, error}`. -/
structure LlmResult where
  ok : Bool
  content : String
  error : String
  deriving Repr, BEq, DecidableEq

/-- The externals of `NexusLoop` (see the section header). -/
structure LoopCtx where
  redact : String → String
  tools : String → List (String × JValue) → ToolResult
  llm : Nat → Bool → LlmResult
  jloads : String → Option JValue
  jraw : String → Option JValue
  attachments_from_artifacts : List String → List String
  agentMaxSteps : Int
  obsMaxChars : Nat
  waBound : Bool
  cliBound : Bool
  now : Int

/-- The durable and in-memory state `NexusLoop` touches, plus the outbox and
tool-call instrumentation. -/
structure Sys where
  ledger : Ledger
  messages : List MsgRow
  pendingActions : List PendingRow
  audit : List AuditEntry
  redactedLog : List String
  journal : List String
  sessions : List (String × String × String)
  outbox : List Outbound
  toolCalls : List ToolCall
  uuidCtr : Nat

/-- A fresh `uuid4()`. -/
def freshId (n : Nat) : String := "uuid-" ++ toString n

/-- Model of `Database.insert_message` — `INSERT OR REPLACE` keyed on `id`. -/
def insert_message (rows : List MsgRow) (r : MsgRow) : List MsgRow :=
  r :: rows.filter (fun m => m.id ≠ r.id)

def insertAudit (st : Sys) (traceId event : String) : Sys :=
  { st with audit := st.audit ++ [⟨traceId, event⟩] }

def appendJournal (st : Sys) (line : String) : Sys :=
  { st with journal := st.journal ++ [line] }

/-- Python truthiness of `message.text`. -/
def textTruthy (t : Option String) : Bool :=
  match t with
  | some s => s ≠ ""
  | none => false

/-- Model of `NexusLoop._send`: forward to the bound channel (inserting the outbound
ledger entry for WhatsApp), then write the redacted log, persist the
assistant message row (with a fresh trace id), and append the session turn. -/
def sendModel (ctx : LoopCtx) (st : Sys) (m : Outbound) : Sys :=
  let st :=
    if m.channel = "whatsapp" ∧ ctx.waBound then
      { st with ledger := insert_ledger st.ledger m.id "outbound" m.chatId }
    else st
  let st := { st with redactedLog := st.redactedLog ++ ["outbound.message"] }
  let traceId := freshId st.uuidCtr
  let st := { st with uuidCtr := st.uuidCtr + 1 }
  let st := { st with
    messages := insert_message st.messages
      ⟨m.id, m.channel, m.chatId, "assistant", "assistant", m.text, traceId⟩ }
  let st :=
    if textTruthy m.text then
      { st with
        sessions := st.sessions ++ [(m.chatId, "assistant", m.text.getD "")] }
    else st
  { st with outbox := st.outbox ++ [m] }

/-- Model of `NexusLoop.register_outbound_provider_id`. -/
def register_outbound_provider_id (st : Sys) (provider_message_id chat_id : String) :
    Sys :=
  if provider_message_id ≠ "" then
    { st with
      ledger := insert_ledger st.ledger provider_message_id "outbound" chat_id }
  else st

/-- Model of `NexusLoop._send_text`. -/
def send_text (ctx : LoopCtx) (st : Sys) (inbound : Inbound) (text : String) :
    Sys :=
  let oid := freshId st.uuidCtr
  let st := { st with uuidCtr := st.uuidCtr + 1 }
  sendModel ctx st ⟨oid, inbound.channel, inbound.chatId, some text, [], some inbound.id⟩

/-- Model of `NexusLoop._send_tool_result`. -/
def send_tool_result (ctx : LoopCtx) (st : Sys) (inbound : Inbound)
    (result : ToolResult) : Sys :=
  let safe0 := pyStrip (ctx.redact result.content)
  let safe :=
    if safe0 = "" then "Task completed, but there was no textual output."
    else safe0
  let atts := ctx.attachments_from_artifacts result.artifacts
  let pair :=
    if inbound.channel = "cli" ∧ atts ≠ [] then
      (safe ++ "\n\nGenerated files:\n"
        ++ String.intercalate "\n" (atts.map (fun a => "- " ++ a)),
       ([] : List String))
    else (safe, atts)
  let oid := freshId st.uuidCtr
  let st := { st with uuidCtr := st.uuidCtr + 1 }
  sendModel ctx st
    ⟨oid, inbound.channel, inbound.chatId, some pair.1, pair.2, some inbound.id⟩

/-- A falsy-or-missing string field defaults (`str(x or default)`). -/
def orDefault (o : Option String) (d : String) : String :=
  match o with
  | some s => if s = "" then d else s
  | none => d

/-- Model of `NexusLoop._media_line`. -/
def media_line (m : MediaItem) : String :=
  let media_type := orDefault m.mtype "unknown"
  let file_name := orDefault m.fileName "(unnamed)"
  let mime_type := orDefault m.mimeType "-"
  let local_path := orDefault m.localPath "-"
  let size_text :=
    match m.sizeBytes with
    | some n => toString n
    | none => "-"
  let status := orDefault m.downloadStatus "unknown"
  let error := orDefault m.downloadError ""
  let line := "- type=" ++ media_type ++ " file_name=" ++ file_name
    ++ " mime=" ++ mime_type ++ " local_path=" ++ local_path
    ++ " size_bytes=" ++ size_text ++ " status=" ++ status
  if error ≠ "" then line ++ " error=" ++ error else line

/-- Model of `NexusLoop._render_media_context_block`. -/
def render_media_context_block (items : List MediaItem) : String :=
  if items = [] then ""
  else
    String.intercalate "\n"
      (["[MEDIA_CONTEXT]"] ++ items.map media_line ++ ["[/MEDIA_CONTEXT]"])

/-- Model of `NexusLoop._effective_user_text`. -/
def effective_user_text (inbound : Inbound) : String :=
  let text := pyStrip (inbound.text.getD "")
  let media_block := render_media_context_block inbound.media
  if text ≠ "" ∧ media_block ≠ "" then text ++ "\n\n" ++ media_block
  else if media_block ≠ "" then media_block
  else text

/-- Python dict update `d[k] = v`. -/
def setKey (args : List (String × JValue)) (k : String) (v : JValue) :
    List (String × JValue) :=
  if (jlookup args k).isSome then
    args.map (fun p => if p.1 == k then (k, v) else p)
  else args ++ [(k, v)]

/-- Python `d.setdefault("chat_id", chat)`. -/
def withChatId (args : List (String × JValue)) (chat : String) :
    List (String × JValue) :=
  if (jlookup args "chat_id").isSome then args
  else args ++ [("chat_id", .str chat)]

/-- Model of `NexusLoop._invoke_tool` (also records the call). -/
def invoke_tool (ctx : LoopCtx) (st : Sys) (inbound : Inbound)
    (tool_name : String) (args : List (String × JValue)) (confirmed : Bool) :
    ToolResult × Sys :=
  let call_args := withChatId args inbound.chatId
  let call_args :=
    if confirmed then setKey call_args "confirmed" (.bool true) else call_args
  (ctx.tools tool_name call_args,
    { st with toolCalls := st.toolCalls ++ [⟨tool_name, call_args, confirmed⟩] })

/-- Model of `NexusLoop._request_confirmation`. -/
def request_confirmation (ctx : LoopCtx) (st : Sys) (inbound : Inbound)
    (tool_name risk_level : String) (args : List (String × JValue)) : Sys :=
  let aid := freshId st.uuidCtr
  let st := { st with uuidCtr := st.uuidCtr + 1 }
  let r := create_pending_action st.pendingActions ctx.now aid inbound.chatId
    tool_name risk_level ⟨tool_name, args⟩
  let st := { st with pendingActions := r.2 }
  send_text ctx st inbound
    ("Confirmation required for " ++ tool_name ++ " (" ++ risk_level ++ "). "
      ++ "Reply YES to proceed or NO to cancel. Action ID: " ++ r.1.actionId)

/-- Model of `NexusLoop._format_observation`. -/
def format_observation (ctx : LoopCtx) (result : ToolResult) : String :=
  let content0 := ctx.redact (pyStrip result.content)
  let content := if content0 = "" then "(no textual output)" else content0
  let limit := max 200 ctx.obsMaxChars
  let content :=
    if limit < content.data.length then
      (⟨content.data.take limit⟩ : String) ++ "...(truncated)"
    else content
  let status := if result.ok then "ok" else "error"
  if result.artifacts ≠ [] then
    let artifact_lines := result.artifacts.map (fun a => "- " ++ a)
    "status=" ++ status ++ "\ncontent=" ++ content
      ++ "\nartifacts_count=" ++ toString artifact_lines.length
      ++ "\nartifacts=\n" ++ String.intercalate "\n" artifact_lines
  else "status=" ++ status ++ "\ncontent=" ++ content

mutual

/-- Model of `json.dumps` of the canonical assistant decision (escaping elided). -/
def jdump : JValue → String
  | .null => "null"
  | .bool b => if b then "true" else "false"
  | .num n => toString n
  | .str s => "\"" ++ s ++ "\""
  | .arr xs => "[" ++ jdumpList xs ++ "]"
  | .obj fs => "\x7b" ++ jdumpFields fs ++ "\x7d"

def jdumpList : List JValue → String
  | [] => ""
  | [v] => jdump v
  | v :: rest => jdump v ++ ", " ++ jdumpList rest

def jdumpFields : List (String × JValue) → String
  | [] => ""
  | [(k, v)] => "\"" ++ k ++ "\": " ++ jdump v
  | (k, v) :: rest => "\"" ++ k ++ "\": " ++ jdump v ++ ", " ++ jdumpFields rest

end

/-- Model of `NexusLoop._llm_step_decision` at the `k`-th router call of this loop
run: route, then parse; an `.error` is the `(None, error, raw)` triple. -/
def llm_step_decision (ctx : LoopCtx) (k : Nat) (complex_task : Bool) :
    Except String AgentDecision × String :=
  let r := ctx.llm k complex_task
  if ¬ r.ok then (.error ("model routing failed: " ++ r.error), "")
  else
    match parse_agent_decision ctx.jloads ctx.jraw (.str r.content) with
    | .ok d => (.ok d, r.content)
    | .error e => (.error e, r.content)

/-- Tokens whose presence in the user text sets the complex-task hint. -/
def complexTaskHint (user_text : String) : Bool :=
  user_text ≠ "" &&
    (["research", "analyze", "complex", "compare", "plan"].any
      (fun t => 0 < pyCount (pyLower user_text).data t.data))

def maxStepsMessage : String :=
  "I reached the maximum reasoning steps for this request. Please narrow the task or ask me to continue from a specific point."

structure ReactResult where
  sys : Sys
  llmCalls : Nat

/-- The outcome of one iteration, as a function of the externals alone. -/
inductive StepKind where
  | err
  | resp
  | confirm
  | contCall
  | malformed
  deriving Repr, BEq, DecidableEq

/-- What the `k`-th loop iteration does, determined by the router, the JSON
decoders and the tool registry. -/
def stepKindAt (ctx : LoopCtx) (inbound : Inbound) (k : Nat)
    (complex_task : Bool) : StepKind :=
  match llm_step_decision ctx k complex_task with
  | (.error _, _) => .err
  | (.ok d, _) =>
      match d.response with
      | some _ => .resp
      | none =>
          match d.call with
          | none => .malformed
          | some c =>
              if (ctx.tools c.name (withChatId c.arguments inbound.chatId)).requires_confirmation
              then .confirm else .contCall

/-- The body of `_run_react_loop`: `fuel` iterations remain, `step` is the
1-based step counter, `calls` counts the router calls already made. -/
def runReactAux (ctx : LoopCtx) (inbound : Inbound) (traceId : String)
    (complex_task : Bool) :
    Nat → Nat → List (String × String) → Sys → Nat → ReactResult
  | 0, _, _, st, calls =>
      let st := insertAudit st traceId "loop.max_steps_reached"
      let st := send_text ctx st inbound maxStepsMessage
      ⟨st, calls⟩
  | fuel + 1, step, stepMsgs, st, calls =>
      match llm_step_decision ctx calls complex_task with
      | (.error err, raw) =>
          let st := insertAudit st traceId "loop.step"
          let correction :=
            "Invalid decision output. Return JSON object with required fields: thought + exactly one of call/response. Validation error: "
              ++ err
          let snippet := pyStrip raw
          let stepMsgs :=
            stepMsgs
              ++ (if snippet ≠ "" then [("assistant", (⟨snippet.data.take 2000⟩ : String))] else [])
              ++ [("user", correction)]
          runReactAux ctx inbound traceId complex_task fuel (step + 1) stepMsgs
            st (calls + 1)
      | (.ok d, _) =>
          match d.response with
          | some resp =>
              let st := insertAudit st traceId "loop.step"
              let st := send_text ctx st inbound (ctx.redact resp)
              let st := appendJournal st ("response chat_id=" ++ inbound.chatId)
              ⟨st, calls + 1⟩
          | none =>
              match d.call with
              | none => ⟨st, calls + 1⟩
              | some call =>
                  let st := insertAudit st traceId "loop.step"
                  let r := invoke_tool ctx st inbound call.name call.arguments false
                  let result := r.1
                  let st := r.2
                  if result.requires_confirmation then
                    let st := request_confirmation ctx st inbound call.name
                      result.risk_level (setKey call.arguments "chat_id" (.str inbound.chatId))
                    ⟨st, calls + 1⟩
                  else
                    let st := insertAudit st traceId "tool.execute"
                    let st :=
                      if result.artifacts ≠ [] then
                        send_tool_result ctx st inbound result
                      else st
                    let observation := format_observation ctx result
                    let st := insertAudit st traceId "loop.tool_observation"
                    let st := appendJournal st
                      ("tool=" ++ call.name ++ " ok=" ++ toString result.ok
                        ++ " chat_id=" ++ inbound.chatId)
                    let stepMsgs := stepMsgs
                      ++ [("assistant",
                            jdump (.obj [("thought", .str d.thought),
                              ("call", .obj [("name", .str call.name),
                                ("arguments", .obj call.arguments)])])),
                          ("user", "TOOL_OBSERVATION:\n" ++ observation)]
                    runReactAux ctx inbound traceId complex_task fuel (step + 1)
                      stepMsgs st (calls + 1)

/-- Model of `NexusLoop._run_react_loop`: at most `max(1, agent_max_steps)`
iterations. -/
def run_react_loop (ctx : LoopCtx) (inbound : Inbound) (traceId : String)
    (st : Sys) : ReactResult :=
  let user_text := inbound.text.getD ""
  let complex_task := complexTaskHint user_text
  runReactAux ctx inbound traceId complex_task (max 1 ctx.agentMaxSteps).toNat
    1 [] st 0

/-- A parsed direct command. -/
inductive DirectCmd where
  | tool (name : String) (args : JValue)
  | response (text : String)
  deriving Repr, BEq

/-- Python `s.split(sep, maxsplit)` for a single-character separator. -/
def splitCharMax (cs : List Char) (sep : Char) : Nat → List (List Char)
  | 0 => [cs]
  | m + 1 =>
      let r := splitOnFirst cs sep
      match r.2 with
      | none => [cs]
      | some rest => r.1 :: splitCharMax rest sep m

/-- Model of `NexusLoop._parse_tool_command`. -/
def parse_tool_command (ctx : LoopCtx) (text : String) : Option DirectCmd :=
  let text := pyStrip text
  if pyStartsWith text "/tool " then
    let parts := splitCharMax text.data ' ' 2
    match parts with
    | [_, tool_name, json_part] =>
        match ctx.jloads ⟨json_part⟩ with
        | none => some (.response "Invalid JSON. Use /tool <name> <json>.")
        | some args => some (.tool ⟨tool_name⟩ args)
    | _ => none
  else if pyStartsWith text "/schedule " then
    let payload := pyStrip ⟨text.data.drop "/schedule ".data.length⟩
    if ¬ payload.data.contains '|' then
      some (.response
        "Use /schedule <when> | <text>. Example: /schedule every monday at 9am | Weekly check-in")
    else
      let halves := splitOnFirst payload.data '|'
      let whenPart := pyStrip ⟨halves.1⟩
      let reminder := pyStrip ⟨(halves.2.getD [])⟩
      some (.tool "scheduler"
        (.obj [("action", .str "schedule"), ("when", .str whenPart),
          ("text", .str reminder)]))
  else if pyStartsWith text "/jobs" then
    some (.tool "scheduler" (.obj [("action", .str "list")]))
  else none

/-- Model of `NexusLoop._execute_tool`. -/
def execute_tool (ctx : LoopCtx) (st : Sys) (inbound : Inbound)
    (tool_name : String) (args : List (String × JValue)) (traceId : String)
    (confirmed : Bool) : Sys :=
  let r := invoke_tool ctx st inbound tool_name args confirmed
  let result := r.1
  let st := r.2
  if result.requires_confirmation then
    request_confirmation ctx st inbound tool_name result.risk_level
      (setKey args "chat_id" (.str inbound.chatId))
  else
    let st := send_tool_result ctx st inbound result
    let st := insertAudit st traceId "tool.execute"
    appendJournal st
      ("tool=" ++ tool_name ++ " ok=" ++ toString result.ok
        ++ " chat_id=" ++ inbound.chatId)

/-- How `handle_inbound` disposed of the message (model instrumentation). -/
inductive Phase where
  | droppedNotSelfChat
  | droppedSenderMismatch
  | droppedDuplicate
  | droppedEmptyPayload
  | confirmExecuted (actionId : String)
  | confirmCancelled (actionId : String)
  | directTool (tool : String)
  | directResponse
  | react
  deriving Repr, BEq, DecidableEq

/-- The direct-command / ReAct tail of `handle_inbound` (steps 6–7). -/
def direct_or_react (ctx : LoopCtx) (st : Sys) (inbound : Inbound)
    (traceId raw_text eff : String) : Sys × Phase :=
  match parse_tool_command ctx raw_text with
  | some (.tool tool_name argsJ) =>
      let args := match argsJ with | .obj fs => fs | _ => []
      (execute_tool ctx st inbound tool_name args traceId false,
        .directTool tool_name)
  | some (.response t) =>
      let st := send_text ctx st inbound (ctx.redact t)
      (appendJournal st ("response chat_id=" ++ inbound.chatId), .directResponse)
  | none =>
      let llmInbound := { inbound with text := some eff }
      ((run_react_loop ctx llmInbound traceId st).sys, .react)

/-- Model of `NexusLoop.handle_inbound` (the non-exceptional path). -/
def handle_inbound (ctx : LoopCtx) (st : Sys) (inbound : Inbound)
    (traceId : String) : Sys × Phase :=
  if inbound.channel = "whatsapp" ∧ ¬ inbound.isSelfChat then
    (st, .droppedNotSelfChat)
  else if inbound.channel = "whatsapp" ∧ ¬ inbound.isFromMe ∧
      ¬ wa_sender_matches_chat inbound.senderId inbound.chatId then
    (st, .droppedSenderMismatch)
  else
    let r := claim_ledger st.ledger inbound.id "inbound" inbound.chatId
    if ¬ r.1 then (st, .droppedDuplicate)
    else
      let st := { st with ledger := r.2 }
      let raw_text := inbound.text.getD ""
      let eff := effective_user_text inbound
      if inbound.channel = "whatsapp" ∧ pyStrip raw_text = "" ∧
          inbound.media = [] then
        (st, .droppedEmptyPayload)
      else
        let st := { st with
          messages := insert_message st.messages
            ⟨inbound.id, inbound.channel, inbound.chatId, inbound.senderId,
              "user", some (ctx.redact eff), traceId⟩ }
        let st := { st with redactedLog := st.redactedLog ++ ["inbound.message"] }
        let st := { st with
          sessions := st.sessions ++ [(inbound.chatId, "user", eff)] }
        if pyStrip raw_text ≠ "" then
          match resolve_pending_action_from_text st.pendingActions ctx.now
              inbound.chatId raw_text with
          | (some pending, rows) =>
              let st := { st with pendingActions := rows }
              if pending.status = "approved" then
                (execute_tool ctx st inbound pending.proposedArgs.tool
                    pending.proposedArgs.args traceId true,
                  .confirmExecuted pending.actionId)
              else
                (send_text ctx st inbound "Cancelled pending action.",
                  .confirmCancelled pending.actionId)
          | (none, rows) =>
              let st := { st with pendingActions := rows }
              direct_or_react ctx st inbound traceId raw_text eff
        else direct_or_react ctx st inbound traceId raw_text eff

theorem sendModel_fields (ctx : LoopCtx) (st : Sys) (m : Outbound) :
    (sendModel ctx st m).audit = st.audit ∧
    (sendModel ctx st m).outbox = st.outbox ++ [m] ∧
    (sendModel ctx st m).toolCalls = st.toolCalls ∧
    (sendModel ctx st m).pendingActions = st.pendingActions ∧
    (sendModel ctx st m).messages =
      insert_message st.messages
        ⟨m.id, m.channel, m.chatId, "assistant", "assistant", m.text,
          freshId st.uuidCtr⟩ ∧
    (sendModel ctx st m).redactedLog = st.redactedLog ++ ["outbound.message"] := by
  simp only [sendModel]
  split <;> split <;> simp

theorem send_text_fields (ctx : LoopCtx) (st : Sys) (inbound : Inbound)
    (text : String) :
    (send_text ctx st inbound text).audit = st.audit ∧
    (send_text ctx st inbound text).outbox =
      st.outbox ++ [⟨freshId st.uuidCtr, inbound.channel, inbound.chatId,
        some text, [], some inbound.id⟩] ∧
    (send_text ctx st inbound text).toolCalls = st.toolCalls ∧
    (send_text ctx st inbound text).pendingActions = st.pendingActions := by
  simp only [send_text]
  have h := sendModel_fields ctx
    { st with uuidCtr := st.uuidCtr + 1 }
    ⟨freshId st.uuidCtr, inbound.channel, inbound.chatId, some text, [],
      some inbound.id⟩
  exact ⟨h.1, h.2.1, h.2.2.1, h.2.2.2.1⟩

theorem send_tool_result_fields (ctx : LoopCtx) (st : Sys) (inbound : Inbound)
    (result : ToolResult) :
    (send_tool_result ctx st inbound result).audit = st.audit ∧
    (∃ m, (send_tool_result ctx st inbound result).outbox = st.outbox ++ [m]) ∧
    (send_tool_result ctx st inbound result).toolCalls = st.toolCalls ∧
    (send_tool_result ctx st inbound result).pendingActions =
      st.pendingActions := by
  simp only [send_tool_result]
  refine ⟨(sendModel_fields _ _ _).1, ⟨_, (sendModel_fields _ _ _).2.1⟩,
    (sendModel_fields _ _ _).2.2.1, (sendModel_fields _ _ _).2.2.2.1⟩

theorem request_confirmation_fields (ctx : LoopCtx) (st : Sys)
    (inbound : Inbound) (tool_name risk_level : String)
    (args : List (String × JValue)) :
    (request_confirmation ctx st inbound tool_name risk_level args).audit =
      st.audit ∧
    (∃ m, (request_confirmation ctx st inbound tool_name risk_level args).outbox =
      st.outbox ++ [m]) ∧
    (request_confirmation ctx st inbound tool_name risk_level args).toolCalls =
      st.toolCalls := by
  simp only [request_confirmation]
  refine ⟨(send_text_fields _ _ _ _).1, ⟨_, (send_text_fields _ _ _ _).2.1⟩,
    (send_text_fields _ _ _ _).2.2.1⟩

/-- C9.  `NexusLoop._send` touches the message ledger only on the WhatsApp
channel: a cli-channel send leaves `message_ledger` untouched (and any send
that changes the ledger is a WhatsApp send), while the `messages` row and the
redacted-log line are written for both channels. -/
theorem send_cli_ledger_frame (ctx : LoopCtx) (st : Sys) (m : Outbound) :
    (m.channel = "cli" → (sendModel ctx st m).ledger = st.ledger) ∧
    ((sendModel ctx st m).ledger ≠ st.ledger → m.channel = "whatsapp") ∧
    (m.channel = "whatsapp" → ctx.waBound = true →
      (sendModel ctx st m).ledger =
        insert_ledger st.ledger m.id "outbound" m.chatId) ∧
    (sendModel ctx st m).messages =
      insert_message st.messages
        ⟨m.id, m.channel, m.chatId, "assistant", "assistant", m.text,
          freshId st.uuidCtr⟩ ∧
    (sendModel ctx st m).redactedLog = st.redactedLog ++ ["outbound.message"] := by
  refine ⟨?_, ?_, ?_, (sendModel_fields ctx st m).2.2.2.2.1,
    (sendModel_fields ctx st m).2.2.2.2.2⟩
  · intro hcli
    have hno : ¬ (m.channel = "whatsapp" ∧ ctx.waBound = true) := by
      intro hcontra
      rw [hcli] at hcontra
      exact absurd hcontra.1 (by decide)
    simp only [sendModel, if_neg hno]
    split <;> simp
  · intro hne
    by_cases hwa : m.channel = "whatsapp"
    · exact hwa
    · exfalso
      apply hne
      have hno : ¬ (m.channel = "whatsapp" ∧ ctx.waBound = true) :=
        fun hcontra => hwa hcontra.1
      simp only [sendModel, if_neg hno]
      split <;> simp
  · intro hwa hbound
    simp only [sendModel, if_pos (And.intro hwa hbound)]
    split <;> simp

/-- A context whose externals are all trivial, for concrete runs. -/
def idRedactCtx : LoopCtx :=
  { redact := id
    tools := fun _ _ => ⟨true, "", [], false, "low"⟩
    llm := fun _ _ => ⟨true, "", ""⟩
    jloads := fun _ => none
    jraw := fun _ => none
    attachments_from_artifacts := id
    agentMaxSteps := 20
    obsMaxChars := 4000
    waBound := true
    cliBound := true
    now := 0 }

def emptySys : Sys := ⟨[], [], [], [], [], [], [], [], [], 0⟩

/-- Concrete run of C9: a cli send leaves an empty ledger empty. -/
theorem send_cli_ledger_frame_witness :
    (sendModel idRedactCtx emptySys
      ⟨"m1", "cli", "cli-user", some "hello", [], none⟩).ledger =
      emptySys.ledger :=
  (send_cli_ledger_frame idRedactCtx emptySys
    ⟨"m1", "cli", "cli-user", some "hello", [], none⟩).1 rfl

theorem sendModel_wa_ledger (ctx : LoopCtx) (st : Sys) (m : Outbound)
    (hwa : m.channel = "whatsapp") (hb : ctx.waBound = true) :
    (sendModel ctx st m).ledger = insert_ledger st.ledger m.id "outbound" m.chatId := by
  simp only [sendModel, if_pos (And.intro hwa hb)]
  split <;> simp

/-- The WhatsApp channel filter of `handle_inbound`, as a predicate. -/
def wa_filter_passes (inbound : Inbound) : Bool :=
  if inbound.channel = "whatsapp" then
    inbound.isSelfChat &&
      (inbound.isFromMe ||
        wa_sender_matches_chat inbound.senderId inbound.chatId)
  else true

theorem direct_or_react_not_special (ctx : LoopCtx) (st : Sys)
    (inbound : Inbound) (traceId raw_text eff : String) :
    (direct_or_react ctx st inbound traceId raw_text eff).2 ≠
        .droppedNotSelfChat ∧
    (direct_or_react ctx st inbound traceId raw_text eff).2 ≠
        .droppedSenderMismatch ∧
    (∀ a, (direct_or_react ctx st inbound traceId raw_text eff).2 ≠
        .confirmExecuted a) ∧
    (∀ a, (direct_or_react ctx st inbound traceId raw_text eff).2 ≠
        .confirmCancelled a) := by
  unfold direct_or_react
  split <;> simp

/-- C6.  The channel filter of `handle_inbound`: a WhatsApp inbound is dropped
when `is_self_chat` is false; when `is_from_me` is false it is admitted only
when the normalized user parts of `sender_id` and `chat_id` (trim, lower,
`:`-device suffix removed, `@`-domain stripped — `wa_user`) are equal and
non-empty, and dropped otherwise; cli inbounds are never subject to this
filter. -/
theorem handle_inbound_channel_filter (ctx : LoopCtx) (st : Sys)
    (inbound : Inbound) (traceId : String) :
    (inbound.channel = "whatsapp" → inbound.isSelfChat = false →
      handle_inbound ctx st inbound traceId = (st, .droppedNotSelfChat)) ∧
    (inbound.channel = "whatsapp" → inbound.isFromMe = false →
      wa_sender_matches_chat inbound.senderId inbound.chatId = false →
      inbound.isSelfChat = true →
      handle_inbound ctx st inbound traceId = (st, .droppedSenderMismatch)) ∧
    (inbound.channel = "whatsapp" → inbound.isFromMe = false →
      (handle_inbound ctx st inbound traceId).2 ≠ .droppedNotSelfChat →
      (handle_inbound ctx st inbound traceId).2 ≠ .droppedSenderMismatch →
      wa_user inbound.senderId = wa_user inbound.chatId ∧
        wa_user inbound.senderId ≠ "" ∧ wa_user inbound.chatId ≠ "") ∧
    (inbound.channel = "cli" →
      (handle_inbound ctx st inbound traceId).2 ≠ .droppedNotSelfChat ∧
      (handle_inbound ctx st inbound traceId).2 ≠ .droppedSenderMismatch) := by
  refine ⟨?_, ?_, ?_, ?_⟩
  · intro hwa hself
    unfold handle_inbound
    rw [if_pos (And.intro hwa (by simp [hself]))]
  · intro hwa hfrom hmatch hself
    unfold handle_inbound
    rw [if_neg (by simp [hself]), if_pos (And.intro hwa
      (And.intro (by simp [hfrom]) (by simp [hmatch])))]
  · intro hwa hfrom h1 h2
    by_cases hself : inbound.isSelfChat = true
    · by_cases hmatch : wa_sender_matches_chat inbound.senderId inbound.chatId = true
      · unfold wa_sender_matches_chat at hmatch
        simp only [Bool.and_eq_true, decide_eq_true_eq, beq_iff_eq] at hmatch
        exact ⟨hmatch.2, hmatch.1.1, hmatch.1.2⟩
      · exfalso
        apply h2
        have hm2 : wa_sender_matches_chat inbound.senderId inbound.chatId = false := by
          simpa using hmatch
        have := (by
          unfold handle_inbound
          rw [if_neg (by simp [hself]), if_pos (And.intro hwa
            (And.intro (by simp [hfrom]) (by simp [hm2])))] :
          handle_inbound ctx st inbound traceId = (st, .droppedSenderMismatch))
        rw [this]
    · exfalso
      apply h1
      have hs2 : inbound.isSelfChat = false := by simpa using hself
      have := (by
        unfold handle_inbound
        rw [if_pos (And.intro hwa (by simp [hs2]))] :
        handle_inbound ctx st inbound traceId = (st, .droppedNotSelfChat))
      rw [this]
  · intro hcli
    have hnwa : ¬ inbound.channel = "whatsapp" := by
      rw [hcli]
      decide
    unfold handle_inbound
    rw [if_neg (fun h => hnwa h.1), if_neg (fun h => hnwa h.1)]
    dsimp only
    split
    · simp
    · split
      · simp
      · split
        · split
          · split <;> simp
          · exact ⟨(direct_or_react_not_special _ _ _ _ _ _).1,
              (direct_or_react_not_special _ _ _ _ _ _).2.1⟩
        · exact ⟨(direct_or_react_not_special _ _ _ _ _ _).1,
            (direct_or_react_not_special _ _ _ _ _ _).2.1⟩

/-- Concrete run of C6: a self-chat WhatsApp message from a third party is
dropped on the identity mismatch. -/
theorem handle_inbound_channel_filter_witness :
    handle_inbound idRedactCtx emptySys
      ⟨"w1", "whatsapp", "15551234567@lid", "15557654321@s.whatsapp.net",
        true, false, some "hi", []⟩ "t1" =
      (emptySys, .droppedSenderMismatch) :=
  (handle_inbound_channel_filter idRedactCtx emptySys
    ⟨"w1", "whatsapp", "15551234567@lid", "15557654321@s.whatsapp.net",
      true, false, some "hi", []⟩ "t1").2.1 rfl rfl (by decide) rfl

/-- C5.  An id recorded in the ledger — by a bound WhatsApp send or by a
delivery-receipt registration — makes any later inbound carrying the same id
a no-op: the claim fails, the state (messages, tool calls, outbox, ledger)
is returned unchanged, and if the message passed the channel filter the
recorded disposition is the duplicate drop. -/
theorem echo_suppression (ctx : LoopCtx) (st : Sys) (inbound : Inbound)
    (traceId : String) :
    (∀ s2 pid chat, pid ≠ "" →
      ledgerHasId (register_outbound_provider_id s2 pid chat).ledger pid = true) ∧
    (∀ s2 m, m.channel = "whatsapp" → ctx.waBound = true →
      ledgerHasId (sendModel ctx s2 m).ledger m.id = true) ∧
    (ledgerHasId st.ledger inbound.id = true →
      (handle_inbound ctx st inbound traceId).1 = st ∧
      ((handle_inbound ctx st inbound traceId).2 = .droppedNotSelfChat ∨
       (handle_inbound ctx st inbound traceId).2 = .droppedSenderMismatch ∨
       (handle_inbound ctx st inbound traceId).2 = .droppedDuplicate) ∧
      (wa_filter_passes inbound = true →
        (handle_inbound ctx st inbound traceId).2 = .droppedDuplicate)) := by
  refine ⟨?_, ?_, ?_⟩
  · intro s2 pid chat hne
    unfold register_outbound_provider_id
    rw [if_pos hne]
    simp [insert_ledger, ledgerHasId]
  · intro s2 m hwa hb
    rw [sendModel_wa_ledger ctx s2 m hwa hb]
    simp [insert_ledger, ledgerHasId]
  · intro hpresent
    have hclaim : (claim_ledger st.ledger inbound.id "inbound" inbound.chatId).1 = false := by
      simp [claim_ledger, hpresent]
    by_cases hc1 : inbound.channel = "whatsapp" ∧ ¬ inbound.isSelfChat
    · have heq : handle_inbound ctx st inbound traceId = (st, .droppedNotSelfChat) := by
        unfold handle_inbound
        rw [if_pos hc1]
      refine ⟨by rw [heq], by rw [heq]; simp, ?_⟩
      intro hpass
      exfalso
      unfold wa_filter_passes at hpass
      rw [if_pos hc1.1] at hpass
      simp only [Bool.and_eq_true] at hpass
      exact hc1.2 (by simp [hpass.1])
    · by_cases hc2 : inbound.channel = "whatsapp" ∧ ¬ inbound.isFromMe ∧
          ¬ wa_sender_matches_chat inbound.senderId inbound.chatId
      · have heq : handle_inbound ctx st inbound traceId = (st, .droppedSenderMismatch) := by
          unfold handle_inbound
          rw [if_neg hc1, if_pos hc2]
        refine ⟨by rw [heq], by rw [heq]; simp, ?_⟩
        intro hpass
        exfalso
        unfold wa_filter_passes at hpass
        rw [if_pos hc2.1] at hpass
        simp only [Bool.and_eq_true, Bool.or_eq_true] at hpass
        rcases hpass.2 with h | h
        · exact hc2.2.1 (by simp [h])
        · exact hc2.2.2 (by simp [h])
      · have heq : handle_inbound ctx st inbound traceId = (st, .droppedDuplicate) := by
          unfold handle_inbound
          rw [if_neg hc1, if_neg hc2, if_pos (by simp [hclaim])]
        exact ⟨by rw [heq], by rw [heq]; simp, fun _ => by rw [heq]⟩

/-- Concrete run of C5: an inbound whose id was registered as an outbound is
returned untouched. -/
theorem echo_suppression_witness :
    (handle_inbound idRedactCtx
      (register_outbound_provider_id emptySys "X" "chat")
      ⟨"X", "cli", "cli-user", "cli-user", true, false, some "hello", []⟩
      "t2").1 =
      register_outbound_provider_id emptySys "X" "chat" :=
  ((echo_suppression idRedactCtx
    (register_outbound_provider_id emptySys "X" "chat")
    ⟨"X", "cli", "cli-user", "cli-user", true, false, some "hello", []⟩
    "t2").2.2 (by decide)).1

theorem invoke_tool_toolCalls (ctx : LoopCtx) (st : Sys) (inbound : Inbound)
    (tool_name : String) (args : List (String × JValue)) (confirmed : Bool) :
    (invoke_tool ctx st inbound tool_name args confirmed).2.toolCalls =
      st.toolCalls ++
        [⟨tool_name,
          (if confirmed then
            setKey (withChatId args inbound.chatId) "confirmed" (.bool true)
          else withChatId args inbound.chatId), confirmed⟩] := by
  simp only [invoke_tool]

theorem execute_tool_toolCalls_unconfirmed (ctx : LoopCtx) (st : Sys)
    (inbound : Inbound) (tool_name : String) (args : List (String × JValue))
    (traceId : String) (c : ToolCall)
    (hmem : c ∈ (execute_tool ctx st inbound tool_name args traceId false).toolCalls) :
    c ∈ st.toolCalls ∨ c.confirmed = false := by
  simp only [execute_tool] at hmem
  split at hmem
  · rw [(request_confirmation_fields _ _ _ _ _ _).2.2,
      invoke_tool_toolCalls] at hmem
    rcases List.mem_append.mp hmem with h | h
    · exact Or.inl h
    · right
      simp only [List.mem_singleton] at h
      rw [h]
  · simp only [appendJournal, insertAudit] at hmem
    rw [(send_tool_result_fields _ _ _ _).2.2.1, invoke_tool_toolCalls] at hmem
    rcases List.mem_append.mp hmem with h | h
    · exact Or.inl h
    · right
      simp only [List.mem_singleton] at h
      rw [h]

theorem runReactAux_toolCalls (ctx : LoopCtx) (inbound : Inbound)
    (traceId : String) (hint : Bool) :
    ∀ fuel step msgs st calls c,
      c ∈ (runReactAux ctx inbound traceId hint fuel step msgs st calls).sys.toolCalls →
      c ∈ st.toolCalls ∨ c.confirmed = false := by
  intro fuel
  induction fuel with
  | zero =>
      intro step msgs st calls c hmem
      simp only [runReactAux] at hmem
      rw [(send_text_fields _ _ _ _).2.2.1] at hmem
      exact Or.inl hmem
  | succ n ih =>
      intro step msgs st calls c hmem
      simp only [runReactAux] at hmem
      rcases hdec : llm_step_decision ctx calls hint with ⟨dec, raw⟩
      rw [hdec] at hmem
      cases dec with
      | error err =>
          dsimp only at hmem
          rcases ih _ _ _ _ c hmem with h | h
          · exact Or.inl h
          · exact Or.inr h
      | ok d =>
          dsimp only at hmem
          rcases hresp : d.response with _ | resp
          · rw [hresp] at hmem
            dsimp only at hmem
            rcases hcall : d.call with _ | call
            · rw [hcall] at hmem
              exact Or.inl hmem
            · rw [hcall] at hmem
              dsimp only at hmem
              split at hmem
              · rw [(request_confirmation_fields _ _ _ _ _ _).2.2,
                  invoke_tool_toolCalls] at hmem
                rcases List.mem_append.mp hmem with h | h
                · exact Or.inl h
                · right
                  simp only [List.mem_singleton] at h
                  rw [h]
              · rcases ih _ _ _ _ c hmem with h | h
                · simp only [appendJournal, insertAudit] at h
                  split at h
                  · rw [(send_tool_result_fields _ _ _ _).2.2.1,
                      invoke_tool_toolCalls] at h
                    rcases List.mem_append.mp h with h2 | h2
                    · exact Or.inl h2
                    · right
                      simp only [List.mem_singleton] at h2
                      rw [h2]
                  · rw [invoke_tool_toolCalls] at h
                    rcases List.mem_append.mp h with h2 | h2
                    · exact Or.inl h2
                    · right
                      simp only [List.mem_singleton] at h2
                      rw [h2]
                · exact Or.inr h
          · rw [hresp] at hmem
            dsimp only [appendJournal] at hmem
            rw [(send_text_fields _ _ _ _).2.2.1] at hmem
            exact Or.inl hmem

theorem direct_or_react_toolCalls (ctx : LoopCtx) (st : Sys)
    (inbound : Inbound) (traceId raw_text eff : String) (c : ToolCall)
    (hmem : c ∈ (direct_or_react ctx st inbound traceId raw_text eff).1.toolCalls) :
    c ∈ st.toolCalls ∨ c.confirmed = false := by
  unfold direct_or_react at hmem
  split at hmem
  · exact execute_tool_toolCalls_unconfirmed _ _ _ _ _ _ c hmem
  · simp only [appendJournal] at hmem
    rw [(send_text_fields _ _ _ _).2.2.1] at hmem
    exact Or.inl hmem
  · exact runReactAux_toolCalls _ _ _ _ _ _ _ _ _ c hmem

theorem parse_confirmation_strip_ne (t : String)
    (h : (parse_confirmation t).isSome = true) : pyStrip t ≠ "" := by
  intro hempty
  unfold parse_confirmation at h
  rw [hempty] at h
  revert h
  decide

theorem filter_passes_conds (inbound : Inbound)
    (h : wa_filter_passes inbound = true) :
    ¬ (inbound.channel = "whatsapp" ∧ ¬ inbound.isSelfChat) ∧
    ¬ (inbound.channel = "whatsapp" ∧ ¬ inbound.isFromMe ∧
      ¬ wa_sender_matches_chat inbound.senderId inbound.chatId) := by
  unfold wa_filter_passes at h
  by_cases hwa : inbound.channel = "whatsapp"
  · rw [if_pos hwa] at h
    simp only [Bool.and_eq_true, Bool.or_eq_true] at h
    constructor
    · intro hc
      exact hc.2 (by simp [h.1])
    · intro hc
      rcases h.2 with h2 | h2
      · exact hc.2.1 (by simp [h2])
      · exact hc.2.2 (by simp [h2])
  · exact ⟨fun hc => hwa hc.1, fun hc => hwa hc.1⟩

/-- C3.  When a YES/NO confirmation text arrives for a chat whose latest
pending action is past its `expires_at`, the resolution marks exactly that
action `expired` and resolves to none, and `handle_inbound` consequently
never reaches the confirmed-execution branch: its disposition is not
`confirmExecuted` and every tool call it adds runs with `confirmed=false`,
so the proposed tool of that action is not executed. -/
theorem confirmation_expiry (ctx : LoopCtx) (st : Sys) (inbound : Inbound)
    (traceId : String) (p : PendingRow)
    (hfilter : wa_filter_passes inbound = true)
    (habs : ledgerHasId st.ledger inbound.id = false)
    (hconf : (parse_confirmation (inbound.text.getD "")).isSome = true)
    (hlatest : get_latest_pending_action st.pendingActions inbound.chatId = some p)
    (hexp : p.expiresAt < ctx.now) :
    (resolve_pending_action_from_text st.pendingActions ctx.now inbound.chatId
        (inbound.text.getD "")).1 = none ∧
    (∀ r ∈ (resolve_pending_action_from_text st.pendingActions ctx.now
        inbound.chatId (inbound.text.getD "")).2,
      r.actionId = p.actionId → r.status = "expired") ∧
    (∀ a, (handle_inbound ctx st inbound traceId).2 ≠ .confirmExecuted a) ∧
    (∀ c ∈ (handle_inbound ctx st inbound traceId).1.toolCalls,
      c ∈ st.toolCalls ∨ c.confirmed = false) := by
  obtain ⟨hres1, hres2, hres3⟩ :=
    resolve_expired_helper st.pendingActions ctx.now inbound.chatId
      (inbound.text.getD "") p hconf hlatest hexp
  have hresolve : resolve_pending_action_from_text st.pendingActions ctx.now
      inbound.chatId (inbound.text.getD "") =
      (none, update_pending_status st.pendingActions p.actionId "expired") := by
    rcases hr : resolve_pending_action_from_text st.pendingActions ctx.now
      inbound.chatId (inbound.text.getD "") with ⟨a, b⟩
    rw [hr] at hres1 hres2
    simp only at hres1 hres2
    rw [hres1, hres2]
  have hne := parse_confirmation_strip_ne _ hconf
  obtain ⟨hc1, hc2⟩ := filter_passes_conds inbound hfilter
  have hclaim : (claim_ledger st.ledger inbound.id "inbound" inbound.chatId).1 = true := by
    simp [claim_ledger, habs]
  have heq : handle_inbound ctx st inbound traceId =
      direct_or_react ctx
        { st with
          ledger := (claim_ledger st.ledger inbound.id "inbound" inbound.chatId).2,
          messages := insert_message st.messages
            ⟨inbound.id, inbound.channel, inbound.chatId, inbound.senderId,
              "user", some (ctx.redact (effective_user_text inbound)), traceId⟩,
          redactedLog := st.redactedLog ++ ["inbound.message"],
          sessions := st.sessions ++
            [(inbound.chatId, "user", effective_user_text inbound)],
          pendingActions :=
            update_pending_status st.pendingActions p.actionId "expired" }
        inbound traceId (inbound.text.getD "") (effective_user_text inbound) := by
    unfold handle_inbound
    rw [if_neg hc1, if_neg hc2]
    dsimp only
    rw [if_neg (by simp [hclaim])]
    rw [if_neg (fun hc => hne hc.2.1)]
    rw [if_pos hne]
    rw [hresolve]
  refine ⟨by rw [hresolve], hres3, ?_, ?_⟩
  · intro a
    rw [heq]
    exact (direct_or_react_not_special _ _ _ _ _ _).2.2.1 a
  · intro c hmem
    rw [heq] at hmem
    rcases direct_or_react_toolCalls _ _ _ _ _ _ c hmem with h | h
    · exact Or.inl h
    · exact Or.inr h

/-- Concrete run of C3: an expired pending action plus a `YES` reply leaves
the action `expired` and the confirmed branch untaken. -/
theorem confirmation_expiry_witness :
    (resolve_pending_action_from_text
        [⟨"a1", "files", "low", 5, ⟨"files", []⟩, "pending", "cli-user", 1⟩]
        100 "cli-user" "YES").1 = none ∧
    (∀ a, (handle_inbound
        { idRedactCtx with now := 100 }
        { emptySys with pendingActions :=
            [⟨"a1", "files", "low", 5, ⟨"files", []⟩, "pending", "cli-user", 1⟩] }
        ⟨"m9", "cli", "cli-user", "cli-user", true, false, some "YES", []⟩
        "t9").2 ≠ .confirmExecuted a) := by
  have h := confirmation_expiry
    { idRedactCtx with now := 100 }
    { emptySys with pendingActions :=
        [⟨"a1", "files", "low", 5, ⟨"files", []⟩, "pending", "cli-user", 1⟩] }
    ⟨"m9", "cli", "cli-user", "cli-user", true, false, some "YES", []⟩
    "t9"
    ⟨"a1", "files", "low", 5, ⟨"files", []⟩, "pending", "cli-user", 1⟩
    (by decide) (by decide) (by decide) rfl (by decide)
  exact ⟨h.1, h.2.2.1⟩

theorem invoke_tool_fields (ctx : LoopCtx) (st : Sys) (inbound : Inbound)
    (tool_name : String) (args : List (String × JValue)) (confirmed : Bool) :
    (invoke_tool ctx st inbound tool_name args confirmed).2.audit = st.audit ∧
    (invoke_tool ctx st inbound tool_name args confirmed).2.outbox = st.outbox ∧
    (invoke_tool ctx st inbound tool_name args confirmed).1 =
      ctx.tools tool_name
        (if confirmed then
          setKey (withChatId args inbound.chatId) "confirmed" (.bool true)
        else withChatId args inbound.chatId) := by
  refine ⟨rfl, rfl, ?_⟩
  simp only [invoke_tool]

/-- Each loop iteration makes exactly one router call, so at most
`fuel` more calls happen. -/
theorem runReactAux_calls_le (ctx : LoopCtx) (inbound : Inbound)
    (traceId : String) (hint : Bool) :
    ∀ fuel step msgs st calls,
      (runReactAux ctx inbound traceId hint fuel step msgs st calls).llmCalls ≤
        calls + fuel := by
  intro fuel
  induction fuel with
  | zero =>
      intro step msgs st calls
      simp [runReactAux]
  | succ n ih =>
      intro step msgs st calls
      simp only [runReactAux]
      rcases hdec : llm_step_decision ctx calls hint with ⟨dec, raw⟩
      cases dec with
      | error err =>
          dsimp only
          have := ih (step + 1)
            (msgs ++
              (if pyStrip raw ≠ "" then
                [("assistant", (⟨(pyStrip raw).data.take 2000⟩ : String))]
              else [])
              ++ [("user",
                "Invalid decision output. Return JSON object with required fields: thought + exactly one of call/response. Validation error: "
                  ++ err)])
            (insertAudit st traceId "loop.step") (calls + 1)
          omega
      | ok d =>
          dsimp only
          rcases d.response with _ | resp
          · rcases d.call with _ | call
            · show calls + 1 ≤ calls + (n + 1)
              omega
            · dsimp only
              split
              · show calls + 1 ≤ calls + (n + 1)
                omega
              · refine le_trans (ih _ _ _ (calls + 1)) (by omega)
          · show calls + 1 ≤ calls + (n + 1)
            omega

/-- When the router and tools make every iteration a continuing tool call,
the loop exhausts its fuel, audits `loop.max_steps_reached`, and the final
outbound — after any interim artifact outbounds — is the boilerplate
max-steps reply. -/
theorem runReactAux_all_call (ctx : LoopCtx) (inbound : Inbound)
    (traceId : String) (hint : Bool)
    (h : ∀ k, stepKindAt ctx inbound k hint = .contCall) :
    ∀ fuel step msgs st calls,
      (runReactAux ctx inbound traceId hint fuel step msgs st calls).llmCalls =
        calls + fuel ∧
      (⟨traceId, "loop.max_steps_reached"⟩ : AuditEntry) ∈
        (runReactAux ctx inbound traceId hint fuel step msgs st calls).sys.audit ∧
      ∃ pre oid,
        (runReactAux ctx inbound traceId hint fuel step msgs st calls).sys.outbox =
          st.outbox ++ pre ++
            [⟨oid, inbound.channel, inbound.chatId, some maxStepsMessage, [],
              some inbound.id⟩] ∧
        ((∀ n a, (ctx.tools n a).artifacts = []) → pre = []) := by
  intro fuel
  induction fuel with
  | zero =>
      intro step msgs st calls
      refine ⟨rfl, ?_, ?_⟩
      · simp only [runReactAux]
        rw [(send_text_fields _ _ _ _).1]
        simp [insertAudit]
      · refine ⟨[], freshId st.uuidCtr, ?_, fun _ => rfl⟩
        simp only [runReactAux]
        rw [(send_text_fields _ _ _ _).2.1]
        simp [insertAudit]
  | succ n ih =>
      intro step msgs st calls
      have hk := h calls
      unfold stepKindAt at hk
      simp only [runReactAux]
      rcases hdec : llm_step_decision ctx calls hint with ⟨dec, raw⟩
      rw [hdec] at hk
      cases dec with
      | error err => simp at hk
      | ok d =>
          dsimp only at hk ⊢
          rcases hresp : d.response with _ | resp
          · rw [hresp] at hk
            dsimp only at hk ⊢
            rcases hcall : d.call with _ | call
            · rw [hcall] at hk
              simp at hk
            · rw [hcall] at hk
              dsimp only at hk ⊢
              have heqinv : (invoke_tool ctx (insertAudit st traceId "loop.step")
                  inbound call.name call.arguments false).1 =
                  ctx.tools call.name (withChatId call.arguments inbound.chatId) := by
                simp [invoke_tool]
              split at hk
              · simp at hk
              · rename_i hnoconf
                split
                · rename_i hconf2
                  rw [heqinv] at hconf2
                  exact absurd hconf2 hnoconf
                obtain ⟨ih1, ih2, pre, oid, ihout, ihpre⟩ := ih (step + 1)
                  (msgs ++ [("assistant",
                      jdump (.obj [("thought", .str d.thought),
                        ("call", .obj [("name", .str call.name),
                          ("arguments", .obj call.arguments)])])),
                    ("user", "TOOL_OBSERVATION:\n" ++ format_observation ctx
                      (invoke_tool ctx (insertAudit st traceId "loop.step")
                        inbound call.name call.arguments false).1)])
                  (appendJournal
                    (insertAudit
                      (if (invoke_tool ctx (insertAudit st traceId "loop.step")
                            inbound call.name call.arguments false).1.artifacts ≠ [] then
                        send_tool_result ctx
                          (insertAudit
                            (invoke_tool ctx (insertAudit st traceId "loop.step")
                              inbound call.name call.arguments false).2
                            traceId "tool.execute")
                          inbound
                          (invoke_tool ctx (insertAudit st traceId "loop.step")
                            inbound call.name call.arguments false).1
                      else
                        insertAudit
                          (invoke_tool ctx (insertAudit st traceId "loop.step")
                            inbound call.name call.arguments false).2
                          traceId "tool.execute")
                      traceId "loop.tool_observation")
                    ("tool=" ++ call.name ++ " ok="
                      ++ toString (invoke_tool ctx (insertAudit st traceId "loop.step")
                          inbound call.name call.arguments false).1.ok
                      ++ " chat_id=" ++ inbound.chatId))
                  (calls + 1)
                refine ⟨by rw [ih1]; omega, ih2, ?_⟩
                by_cases hart :
                    (invoke_tool ctx (insertAudit st traceId "loop.step")
                      inbound call.name call.arguments false).1.artifacts ≠ []
                · obtain ⟨m, hm⟩ := (send_tool_result_fields ctx
                    (insertAudit
                      (invoke_tool ctx (insertAudit st traceId "loop.step")
                        inbound call.name call.arguments false).2
                      traceId "tool.execute")
                    inbound
                    (invoke_tool ctx (insertAudit st traceId "loop.step")
                      inbound call.name call.arguments false).1).2.1
                  refine ⟨[m] ++ pre, oid, ?_, ?_⟩
                  · rw [ihout, if_pos hart]
                    simp only [appendJournal, insertAudit] at hm ⊢
                    rw [hm]
                    rw [(invoke_tool_fields _ _ _ _ _ _).2.1]
                    simp
                  · intro hnoart
                    exfalso
                    apply hart
                    rw [(invoke_tool_fields _ _ _ _ _ _).2.2]
                    exact hnoart _ _
                · refine ⟨pre, oid, ?_, ihpre⟩
                  rw [ihout, if_neg hart]
                  simp only [appendJournal, insertAudit]
                  rw [(invoke_tool_fields _ _ _ _ _ _).2.1]
          · rw [hresp] at hk
            simp at hk

/-- C2 (amended).  Each loop run makes at most `max(1, agentMaxSteps)` router
calls — hence at most `agentMaxSteps` whenever `agentMaxSteps ≥ 1`, the bound
failing only for non-positive configurations, where the code still runs one
step.  And if every step yields a continuing tool call (never a response,
never a confirmation request), the loop makes exactly `max(1, agentMaxSteps)`
router calls, records a `loop.max_steps_reached` audit event, and its final
outbound — sent exactly once, after any interim artifact outbounds (none when
the tools produce no artifacts) — is the boilerplate maximum-reasoning-steps
reply. -/
theorem react_loop_step_bound (ctx : LoopCtx) (inbound : Inbound)
    (traceId : String) (st : Sys) :
    (run_react_loop ctx inbound traceId st).llmCalls ≤
      (max 1 ctx.agentMaxSteps).toNat ∧
    (1 ≤ ctx.agentMaxSteps →
      ((run_react_loop ctx inbound traceId st).llmCalls : Int) ≤
        ctx.agentMaxSteps) ∧
    ((∀ k, stepKindAt ctx inbound k (complexTaskHint (inbound.text.getD "")) =
        .contCall) →
      (run_react_loop ctx inbound traceId st).llmCalls =
        (max 1 ctx.agentMaxSteps).toNat ∧
      (⟨traceId, "loop.max_steps_reached"⟩ : AuditEntry) ∈
        (run_react_loop ctx inbound traceId st).sys.audit ∧
      ∃ pre oid,
        (run_react_loop ctx inbound traceId st).sys.outbox =
          st.outbox ++ pre ++
            [⟨oid, inbound.channel, inbound.chatId, some maxStepsMessage, [],
              some inbound.id⟩] ∧
        ((∀ n a, (ctx.tools n a).artifacts = []) → pre = [])) := by
  refine ⟨?_, ?_, ?_⟩
  · have := runReactAux_calls_le ctx inbound traceId
      (complexTaskHint (inbound.text.getD ""))
      (max 1 ctx.agentMaxSteps).toNat 1 [] st 0
    simpa [run_react_loop] using this
  · intro hpos
    have hb := runReactAux_calls_le ctx inbound traceId
      (complexTaskHint (inbound.text.getD ""))
      (max 1 ctx.agentMaxSteps).toNat 1 [] st 0
    have hmax : max 1 ctx.agentMaxSteps = ctx.agentMaxSteps :=
      max_eq_right hpos
    simp only [run_react_loop]
    rw [hmax] at hb ⊢
    omega
  · intro hall
    have h := runReactAux_all_call ctx inbound traceId
      (complexTaskHint (inbound.text.getD "")) hall
      (max 1 ctx.agentMaxSteps).toNat 1 [] st 0
    simpa [run_react_loop] using h

/-- A context in which every router call returns a continuing tool call. -/
def allCallCtx : LoopCtx :=
  { redact := id
    tools := fun _ _ => ⟨true, "done", [], false, "low"⟩
    llm := fun _ _ => ⟨true, "call", ""⟩
    jloads := fun s =>
      if s = "call" then
        some (.obj [("thought", .str "t"),
          ("call", .obj [("name", .str "echo")])])
      else none
    jraw := fun _ => none
    attachments_from_artifacts := id
    agentMaxSteps := 2
    obsMaxChars := 4000
    waBound := true
    cliBound := true
    now := 0 }

/-- C2 counterexample.  With `agent_max_steps = 0` the loop still runs
`max(1, 0) = 1` step and makes one router call, exceeding the claimed
`agentMaxSteps` bound. -/
theorem react_loop_step_bound_counterexample :
    (run_react_loop { allCallCtx with agentMaxSteps := 0 }
      ⟨"m1", "cli", "cli-user", "cli-user", true, false, some "hi", []⟩
      "t" emptySys).llmCalls = 1 ∧
    ¬ (((run_react_loop { allCallCtx with agentMaxSteps := 0 }
      ⟨"m1", "cli", "cli-user", "cli-user", true, false, some "hi", []⟩
      "t" emptySys).llmCalls : Int) ≤
        ({ allCallCtx with agentMaxSteps := 0 } : LoopCtx).agentMaxSteps) := by
  constructor
  · rfl
  · decide

/-- Concrete run of the amended C2: two always-call steps, then the
boilerplate reply and the audit row. -/
theorem react_loop_step_bound_witness :
    (run_react_loop allCallCtx
      ⟨"m1", "cli", "cli-user", "cli-user", true, false, some "hi", []⟩
      "t" emptySys).llmCalls = 2 ∧
    (⟨"t", "loop.max_steps_reached"⟩ : AuditEntry) ∈
      (run_react_loop allCallCtx
        ⟨"m1", "cli", "cli-user", "cli-user", true, false, some "hi", []⟩
        "t" emptySys).sys.audit := by
  have h := (react_loop_step_bound allCallCtx
    ⟨"m1", "cli", "cli-user", "cli-user", true, false, some "hi", []⟩
    "t" emptySys).2.2 (fun k => rfl)
  refine ⟨?_, h.2.1⟩
  rw [h.1]
  rfl

end Nexus
